import Mathlib

/-
  Verification development for the Viral-Content-CoPilot repository.

  Shallow embedding of the parts of the code the specification talks about:
  * src/types.ts                      — Scene / ScriptResult data model
  * src/components/RenderQueue.tsx    — updateScene, processQueue (render queue)
  * src/App.tsx                       — handleAddToRenderQueue
  * src/services/geminiService.ts     — fetchViralAnalysis
  * src/services/resembleService.ts   — generateVoiceoverAudioUrl

  Vendor services (Google GenAI video operations, ElevenLabs TTS, fetch,
  URL.createObjectURL) are modelled as opaque environments; the embedding
  records every externally visible action of the component code as an event.
-/

namespace VCP

/-- Truthiness of an optional JavaScript string: `undefined`/`null` and the
empty string are falsy, every other string is truthy (used for checks such as
`if (!item.imageUrl)` and `getEnv(...) || null`). -/
def jsTruthyOpt : Option String → Bool
  | none => false
  | some s => !s.isEmpty

/- ---------------------------------------------------------------------
   Data model (types.ts)
   --------------------------------------------------------------------- -/

/-- `scriptType: 'voiceover' | 'dialogue'` from types.ts. -/
inductive ScriptType where
  | voiceover
  | dialogue
  deriving DecidableEq, Repr

/-- `videoStatus?: 'idle' | 'queued' | 'processing' | 'done' | 'error'`. -/
inductive VideoStatus where
  | idle
  | queued
  | processing
  | done
  | error
  deriving DecidableEq, Repr

/-- `interface Scene` from types.ts.  Optional TS fields become `Option`. -/
structure Scene where
  visual : String
  script : String
  scriptType : ScriptType
  imageUrl : Option String := none
  isGeneratingImage : Option Bool := none
  interactionPrompt : Option String := none
  videoUrl : Option String := none
  videoStatus : Option VideoStatus := none
  videoGenerationMessage : Option String := none
  voiceoverAudioUrl : Option String := none
  isGeneratingVoiceover : Option Bool := none
  deriving DecidableEq, Repr

/-- `interface Hook` from types.ts. -/
structure Hook where
  verbal : String
  visual : String
  textOverlay : String
  deriving DecidableEq, Repr

/-- `interface PlatformVariation` from types.ts. -/
structure PlatformVariation where
  platformName : String
  callToAction : String
  suggestedSound : String
  notes : Option String := none
  deriving DecidableEq, Repr

/-- `interface ScriptResult` from types.ts. -/
structure ScriptResult where
  hook : Hook
  scenes : List Scene
  callToAction : String
  suggestedSound : String
  platformVariations : Option (List PlatformVariation) := none
  deriving DecidableEq, Repr

/- ---------------------------------------------------------------------
   RenderQueue.tsx : updateScene and the scene-update objects it receives
   --------------------------------------------------------------------- -/

/-- The `Partial<Scene>` objects that RenderQueue.tsx ever passes to
`updateScene`: they only ever mention the keys `videoStatus`, `videoUrl` and
`videoGenerationMessage`.  An outer `none` means the key is absent from the
update object; `some v` means the key is present with value `v` (which for the
two string fields may itself be `undefined`, i.e. the inner `Option`). -/
structure SceneUpdate where
  videoStatus : Option VideoStatus := none
  videoUrl : Option (Option String) := none
  videoGenerationMessage : Option (Option String) := none
  deriving DecidableEq, Repr

/-- Key-presence override used by the object spread `{ ...scene, ...updates }`. -/
def overrideOpt {α : Type} (old : α) (upd : Option α) : α :=
  match upd with
  | some v => v
  | none => old

/-- `{ ...newScenes[sceneIndex], ...updates }` for the updates RenderQueue
issues. -/
def applySceneUpdate (s : Scene) (u : SceneUpdate) : Scene :=
  { s with
    videoStatus := overrideOpt s.videoStatus (u.videoStatus.map some)
    videoUrl := overrideOpt s.videoUrl u.videoUrl
    videoGenerationMessage := overrideOpt s.videoGenerationMessage u.videoGenerationMessage }

/-- `newScenes[sceneIndex] = { ...newScenes[sceneIndex], ...updates }` on a
copied array (out-of-range indices never occur in the code; here they leave the
list unchanged). -/
def setScene : List Scene → Nat → SceneUpdate → List Scene
  | [], _, _ => []
  | s :: rest, 0, u => applySceneUpdate s u :: rest
  | s :: rest, i + 1, u => s :: setScene rest i u

/-- `updateScene` from RenderQueue.tsx (the non-null branch of the state
updater): replaces scene `sceneIndex` with the merged scene, keeps every other
scene and every other field of the script. -/
def updateScene (cur : ScriptResult) (sceneIndex : Nat) (u : SceneUpdate) : ScriptResult :=
  { cur with scenes := setScene cur.scenes sceneIndex u }

/- ---------------------------------------------------------------------
   RenderQueue.tsx : loading messages & string constants
   --------------------------------------------------------------------- -/

/-- `LOADING_MESSAGES` from RenderQueue.tsx. -/
def LOADING_MESSAGES : List String :=
  [ "Conceptualizing your scene..."
  , "Storyboarding the action..."
  , "Gathering virtual props and actors..."
  , "Finding the perfect lighting..."
  , "Rendering the first frames..."
  , "This can take a few minutes, stay tuned..."
  , "Compositing the shots..."
  , "Adding final cinematic touches..."
  , "Almost there, preparing your video!" ]

/-- `LOADING_MESSAGES[messageIndex % LOADING_MESSAGES.length]`. -/
def tickMessage (k : Nat) : String :=
  LOADING_MESSAGES.getD (k % LOADING_MESSAGES.length) ""

/-- Error shown when a queued scene has no generated image (step 0). -/
def missingImageMessage (sceneIndex : Nat) : String :=
  "Scene " ++ toString (sceneIndex + 1) ++
    " is missing a generated image. Please generate the image first."

def invalidDataUrlMessage : String :=
  "Invalid image data URL format for the scene image."

/-- `new GoogleGenAI` operation error surfaced by the polling loop. -/
structure OperationError where
  message : String
  code : Int
  deriving DecidableEq, Repr

def genFailedMessage (e : OperationError) : String :=
  "Generation failed: " ++ e.message ++ " (Code: " ++ toString e.code ++ ")"

def noApiKeyMessage : String :=
  "Google AI API Key not found. Cannot download generated video."

def downloadFailedMessage (statusText : String) : String :=
  "Failed to download the generated video. Status: " ++ statusText

def noLinkMessage : String :=
  "Video generation finished successfully, but the response did not contain a video link."

/-- `{ videoStatus: 'processing', videoGenerationMessage: LOADING_MESSAGES[0] }`. -/
def processingUpdate : SceneUpdate :=
  { videoStatus := some .processing
    videoGenerationMessage := some (some (LOADING_MESSAGES.getD 0 "")) }

/-- `{ videoStatus: 'error', videoGenerationMessage: errorMessage }`. -/
def errorUpdate (msg : String) : SceneUpdate :=
  { videoStatus := some .error, videoGenerationMessage := some (some msg) }

/-- `{ videoStatus: 'done', videoUrl: videoUrl, videoGenerationMessage: undefined }`. -/
def doneUpdate (videoUrl : String) : SceneUpdate :=
  { videoStatus := some .done
    videoUrl := some (some videoUrl)
    videoGenerationMessage := some none }

/-- `{ videoGenerationMessage: LOADING_MESSAGES[messageIndex % LOADING_MESSAGES.length] }`. -/
def msgUpdate (k : Nat) : SceneUpdate :=
  { videoGenerationMessage := some (some (tickMessage k)) }

/- ---------------------------------------------------------------------
   RenderQueue.tsx : data-URL header parsing (step 2)
   --------------------------------------------------------------------- -/

/-- The ECMAScript line terminators, which the regex `.` (without the dotAll
flag) never matches: LF, CR, LINE SEPARATOR and PARAGRAPH SEPARATOR. -/
def isLineTerminator (c : Char) : Bool :=
  c = '\n' || c = '\r' || c = '\u2028' || c = '\u2029'

/-- After the regex engine has committed to a colon, the lazy `.*?;` grows one
character at a time looking for a semicolon; the dot cannot consume a line
terminator, so the attempt at this start position fails when one (or the end
of the input) is reached before a semicolon. -/
def takeUntilSemi : List Char → Option (List Char)
  | [] => none
  | c :: rest =>
    if c = ';' then some []
    else if isLineTerminator c then none
    else (takeUntilSemi rest).map (fun l => c :: l)

/-- `header.match(/:(.*?);/)?.[1]`: start positions are tried left to right,
and only a colon can begin a match; when the attempt at one colon fails (no
semicolon before a line terminator), the engine moves on and may match at a
later colon. -/
def findColonCapture : List Char → Option (List Char)
  | [] => none
  | c :: rest =>
    if c = ':' then
      match takeUntilSemi rest with
      | some cap => some cap
      | none => findColonCapture rest
    else findColonCapture rest

def mimeCapture (header : String) : Option String :=
  (findColonCapture header.toList).map (fun l => String.mk l)

/-- `header.match(/:(.*?);/)?.[1] || 'image/png'`: an absent match yields
`undefined` and an empty capture is falsy, both fall back to the default. -/
def mimeTypeOf (header : String) : String :=
  match mimeCapture header with
  | some s => if s.isEmpty then "image/png" else s
  | none => "image/png"

/-- JS `s.split(',')` for the one-character separator: the (possibly empty)
character groups between commas, in order; splitting the empty string yields
one empty group, exactly as in JS. -/
def splitComma : List Char → List (List Char)
  | [] => [[]]
  | c :: rest =>
    match splitComma rest with
    | [] => [[]]
    | grp :: groups =>
      if c = ',' then [] :: grp :: groups else (c :: grp) :: groups

/-- First component of `item.imageUrl.split(',')` (the split always returns at
least one element, so the default is never used on the truthy path). -/
def dataUrlHeader (item : Scene) : String :=
  String.mk ((splitComma (item.imageUrl.getD "").toList).getD 0 [])

/-- Second component of the destructuring `[header, base64Data] = split(',')`.
When there is no comma `base64Data` is `undefined`; `undefined` and `""` are
equally falsy and equally impossible as real payloads, so the absent case is
folded into the empty-string default. -/
def dataUrlPayload (item : Scene) : String :=
  String.mk ((splitComma (item.imageUrl.getD "").toList).getD 1 [])

/-- The `{ data, mimeType }` object handed to `startVideoGeneration`. -/
structure SceneImage where
  data : String
  mimeType : String
  deriving DecidableEq, Repr

/- ---------------------------------------------------------------------
   RenderQueue.tsx : prompt assembly (step 2)
   --------------------------------------------------------------------- -/

/-- The characters JavaScript `trim()` strips: the ECMAScript WhiteSpace set
(TAB, VT, FF, ZWNBSP and the Unicode space separators, NBSP included) together
with the line terminators. -/
def isJsWhitespace (c : Char) : Bool :=
  c = '\t' || c = '\u000B' || c = '\u000C' || c = '\uFEFF' ||
  c = ' ' || c = '\u00A0' || c = '\u1680' ||
  (decide ('\u2000' ≤ c) && decide (c ≤ '\u200A')) ||
  c = '\u202F' || c = '\u205F' || c = '\u3000' ||
  c = '\n' || c = '\r' || c = '\u2028' || c = '\u2029'

/-- JavaScript `String.prototype.trim`: remove leading and trailing
ECMAScript whitespace and line terminators. -/
def jsTrim (s : String) : String :=
  String.mk (((s.toList.dropWhile isJsWhitespace).reverse.dropWhile isJsWhitespace).reverse)

/-- The `audioInstruction` cases of processQueue.  The JS conditions are
`scriptType === '...' && scriptText && scriptText.trim() !== ''`. -/
def audioInstruction (scriptType : ScriptType) (scriptText : String) : String :=
  if scriptType == ScriptType.dialogue && !scriptText.isEmpty && !(jsTrim scriptText).isEmpty then
    "The person in the image MUST animate their mouth to lip-sync the following dialogue as if they are speaking it directly to the camera. The mouth movements must be natural and synchronized to these exact words: \"" ++ scriptText ++ "\"."
  else if scriptType == ScriptType.voiceover && !scriptText.isEmpty && !(jsTrim scriptText).isEmpty then
    "The person in the image is NOT speaking. Their mouth should remain neutral or show emotion that matches the scene\x27s mood, but they MUST NOT lip-sync or appear to be talking."
  else
    "The person in the image is NOT speaking. Their mouth should remain neutral."

/-- The template literal assigned to `prompt` in processQueue, with
`item.visual`, the destructured `scriptText = item.script`, the computed
`audioInstruction` and `productDescription` spliced in. -/
def mkPrompt (item : Scene) (productDescription : String) : String :=
  let scriptText := item.script
  let instr := audioInstruction item.scriptType scriptText
  "\n" ++
  "                    You are a master cinematographer. Create a short, photorealistic, cinematic, UGC-style video based on the provided image.\n" ++
  "                    \n" ++
  "                    **SCENE DIRECTIVES:**\n" ++
  "                    - **Visuals:** You MUST follow these visual instructions precisely: \"" ++ item.visual ++ "\". This includes specific camera shots, movements, and lighting.\n" ++
  "                    - **Emotion and Mood:** The influencer\x27s facial expressions and body language MUST convey the emotion and mood implied by the visual description (\"" ++ item.visual ++ "\") and the script (\"" ++ scriptText ++ "\"). For example, if the script is excited, the influencer must look excited. If the visual description mentions \"dramatic lighting\", the mood must be dramatic.\n" ++
  "                    - **Dialogue/Action:** " ++ instr ++ "\n" ++
  "\n" ++
  "                    **CONTEXT:**\n" ++
  "                    - **Product:** The product in the scene is: \"" ++ productDescription ++ "\".\n" ++
  "                    \n" ++
  "                    **FINAL OUTPUT REQUIREMENTS:**\n" ++
  "                    - Animate the still image to bring this scene to life, making it engaging for a social media ad.\n" ++
  "                    - The final output must be 8K, highly detailed, with professional color grading.\n" ++
  "                    - CRITICAL: You must perfectly preserve the appearance of the person and product from the source image. Do not change their identity or features.\n" ++
  "                "

/- ---------------------------------------------------------------------
   RenderQueue.tsx : processQueue, as an event-emitting state machine
   --------------------------------------------------------------------- -/

/-- Externally visible actions of one processQueue run.  `update` is a call of
the component's `updateScene`; `submitCall` a call of `startVideoGeneration`;
`pollCall` a call of `checkVideoStatus`, stamped with the setInterval firing
time in milliseconds since the submission; `intervalCleared` a call of
`clearInterval`; `downloadCall` the `fetch` of the generated video. -/
inductive Event where
  | update (sceneIndex : Nat) (u : SceneUpdate)
  | submitCall (sceneIndex : Nat) (prompt : String) (image : SceneImage)
  | pollCall (sceneIndex : Nat) (timeMs : Nat)
  | intervalCleared (sceneIndex : Nat)
  | downloadCall (sceneIndex : Nat) (url : String)
  deriving DecidableEq, Repr

/-- What one `checkVideoStatus` call returns for a given scene and tick:
either the awaited promise rejects, or it yields an operation object with a
`done` flag, an optional `error` and the optional deep field
`response?.generatedVideos?.[0]?.video?.uri`. -/
structure PollResponse where
  done : Bool
  error : Option OperationError := none
  downloadLink : Option String := none
  deriving DecidableEq, Repr

inductive PollStep where
  | throwErr (msg : String)
  | result (r : PollResponse)
  deriving DecidableEq, Repr

/-- Outcome of the video-download `fetch`: HTTP ok flag, `statusText`, and the
object URL that `URL.createObjectURL` mints for the received blob. -/
structure DownloadResult where
  ok : Bool
  statusText : String := ""
  objectUrl : String := ""
  deriving DecidableEq, Repr

/-- The opaque outside world of one processQueue run: the `VITE_API_KEY`
environment value, and per scene index the result of submitting the video job,
the result of the `t`-th status poll, and the download outcome. -/
structure Env where
  apiKey : Option String
  submit : Nat → Except String Unit
  polls : Nat → Nat → PollStep
  download : Nat → DownloadResult

/-- `setInterval(..., 10000)`. -/
def POLL_INTERVAL_MS : Nat := 10000

inductive TickOutcome where
  | continuePolling
  | resolved
  | rejected (msg : String)
  deriving DecidableEq, Repr

/-- One firing of the setInterval callback for scene `idx` (tick `t`,
zero-based; `messageIndex` starts at 1, so the firing shows
`LOADING_MESSAGES[(t+1) % 9]`, then awaits `checkVideoStatus`).  On a `done`
operation the interval is cleared at once; the throw paths inside the callback
are caught by the callback's catch, which calls `clearInterval` again (the
handle variable is still set) and rejects the promise. -/
def pollTick (env : Env) (idx : Nat) (t : Nat) : List Event × TickOutcome :=
  let msgEv := Event.update idx (msgUpdate (t + 1))
  let callEv := Event.pollCall idx (POLL_INTERVAL_MS * (t + 1))
  match env.polls idx t with
  | .throwErr m => ([msgEv, callEv, .intervalCleared idx], .rejected m)
  | .result r =>
    if r.done then
      match r.error with
      | some e =>
        ([msgEv, callEv, .intervalCleared idx, .intervalCleared idx],
          .rejected (genFailedMessage e))
      | none =>
        match r.downloadLink with
        | some link =>
          if !link.isEmpty then
            if jsTruthyOpt env.apiKey then
              let d := env.download idx
              if d.ok then
                ([msgEv, callEv, .intervalCleared idx,
                  .downloadCall idx (link ++ "&key=" ++ env.apiKey.getD ""),
                  .update idx (doneUpdate d.objectUrl)], .resolved)
              else
                ([msgEv, callEv, .intervalCleared idx,
                  .downloadCall idx (link ++ "&key=" ++ env.apiKey.getD ""),
                  .intervalCleared idx], .rejected (downloadFailedMessage d.statusText))
            else
              ([msgEv, callEv, .intervalCleared idx, .intervalCleared idx],
                .rejected noApiKeyMessage)
          else
            ([msgEv, callEv, .intervalCleared idx, .intervalCleared idx],
              .rejected noLinkMessage)
        | none =>
          ([msgEv, callEv, .intervalCleared idx, .intervalCleared idx],
            .rejected noLinkMessage)
    else ([msgEv, callEv], .continuePolling)

inductive PollOutcome where
  | settled (r : Except String Unit)
  | hung
  deriving Repr

/-- The promise wrapped around the setInterval polling, truncated after `fuel`
ticks: in the source the loop runs until a tick resolves or rejects, so `hung`
marks a run on which the promise (and processQueue with it) never settles. -/
def pollLoop (env : Env) (idx : Nat) : Nat → Nat → List Event × PollOutcome
  | 0, _ => ([], .hung)
  | fuel + 1, t =>
    match pollTick env idx t with
    | (evs, .continuePolling) =>
      let rest := pollLoop env idx fuel (t + 1)
      (evs ++ rest.1, rest.2)
    | (evs, .resolved) => (evs, .settled (.ok ()))
    | (evs, .rejected m) => (evs, .settled (.error m))

inductive ItemOutcome where
  | success
  | failure
  | hung
  deriving DecidableEq, Repr

/-- The body of processQueue's `for` loop for one snapshot item `item` with
original index `idx`.  JS note: the destructuring `[header, base64Data] =
item.imageUrl.split(',')` leaves `base64Data` `undefined` when there is no
comma; both `undefined` and the empty string are falsy, so absence is modelled
by the empty-string default.  On a rejection that came out of the polling
promise the outer catch finds the interval handle still set and clears it once
more before recording the error. -/
def processItem (env : Env) (fuel : Nat) (productDescription : String)
    (idx : Nat) (item : Scene) : List Event × ItemOutcome :=
  if !jsTruthyOpt item.imageUrl then
    ([Event.update idx (errorUpdate (missingImageMessage idx))], .failure)
  else
    let procEv := Event.update idx processingUpdate
    let header := dataUrlHeader item
    let base64Data := dataUrlPayload item
    if header.isEmpty || base64Data.isEmpty then
      ([procEv, Event.update idx (errorUpdate invalidDataUrlMessage)], .failure)
    else
      let sceneImage : SceneImage := { data := base64Data, mimeType := mimeTypeOf header }
      let prompt := mkPrompt item productDescription
      match env.submit idx with
      | .error m =>
        ([procEv, Event.submitCall idx prompt sceneImage,
          Event.update idx (errorUpdate m)], .failure)
      | .ok _ =>
        match pollLoop env idx fuel 0 with
        | (evs, .settled (.ok _)) =>
          (procEv :: Event.submitCall idx prompt sceneImage :: evs, .success)
        | (evs, .settled (.error m)) =>
          (procEv :: Event.submitCall idx prompt sceneImage ::
            (evs ++ [Event.intervalCleared idx, Event.update idx (errorUpdate m)]), .failure)
        | (evs, .hung) =>
          (procEv :: Event.submitCall idx prompt sceneImage :: evs, .hung)

/-- How a whole run ended: the loop walked every item, broke out at the item
with index `sceneIndex`, or is still awaiting a poll that never settled. -/
inductive RunOutcome where
  | completed
  | broke (sceneIndex : Nat)
  | hung (sceneIndex : Nat)
  deriving DecidableEq, Repr

structure RunResult where
  events : List Event
  final : ScriptResult
  outcome : RunOutcome
  deriving DecidableEq, Repr

/-- Effect of one event on the mounted component's script state: only
`updateScene` calls change it. -/
def applyEvent (st : ScriptResult) : Event → ScriptResult
  | .update i u => updateScene st i u
  | _ => st

def applyEvents (st : ScriptResult) (evs : List Event) : ScriptResult :=
  evs.foldl applyEvent st

/-- The `for (const item of itemsToProcess)` loop: process items in order,
`break` on failure. -/
def processItems (env : Env) (fuel : Nat) (productDescription : String) :
    List (Nat × Scene) → ScriptResult → RunResult
  | [], st => ⟨[], st, .completed⟩
  | (idx, item) :: rest, st =>
    match processItem env fuel productDescription idx item with
    | (evs, .success) =>
      let r := processItems env fuel productDescription rest (applyEvents st evs)
      ⟨evs ++ r.events, r.final, r.outcome⟩
    | (evs, .failure) => ⟨evs, applyEvents st evs, .broke idx⟩
    | (evs, .hung) => ⟨evs, applyEvents st evs, .hung idx⟩

/-- `itemsToProcess`: the snapshot scenes, paired with their original index and
filtered to the ones whose `videoStatus` is `'queued'`. -/
def itemsToProcess (s : ScriptResult) : List (Nat × Scene) :=
  s.scenes.enum.filter (fun p => decide (p.2.videoStatus = some VideoStatus.queued))

/-- `processQueue` from RenderQueue.tsx, as a function of the opaque outside
world `env`, a tick budget `fuel` for each polling promise, the
`productDescription` prop and the snapshot script `s`.  The component-local
`isProcessing` / `processingError` flags are UI state no claim mentions and are
not modelled. -/
def processQueue (env : Env) (fuel : Nat) (productDescription : String)
    (s : ScriptResult) : RunResult :=
  processItems env fuel productDescription (itemsToProcess s) s

/- ---------------------------------------------------------------------
   App.tsx : handleAddToRenderQueue
   --------------------------------------------------------------------- -/

/-- `{ ...scene, videoStatus: 'queued', videoUrl: undefined,
videoGenerationMessage: undefined }` from handleAddToRenderQueue. -/
def enqueueUpdate : SceneUpdate :=
  { videoStatus := some .queued, videoUrl := some none, videoGenerationMessage := some none }

/-- `handleAddToRenderQueue` from App.tsx, i.e. the state updater it hands to
`setScriptResult`.  Reading `newScenes[sceneIndex].videoStatus` of an
out-of-range index would throw a TypeError in JS; that is the `.error` case,
which never occurs for the indices the UI passes. -/
def handleAddToRenderQueue (cur : Option ScriptResult) (sceneIndex : Nat) :
    Except String (Option ScriptResult) :=
  match cur with
  | none => .ok none
  | some s =>
    match s.scenes.get? sceneIndex with
    | none => .error ("TypeError: cannot read videoStatus of undefined")
    | some sc =>
      if sc.videoStatus = some VideoStatus.queued ∨
          sc.videoStatus = some VideoStatus.processing ∨
          sc.videoStatus = some VideoStatus.done then
        .ok (some s)
      else
        .ok (some { s with scenes := setScene s.scenes sceneIndex enqueueUpdate })

/- ---------------------------------------------------------------------
   geminiService.ts : fetchViralAnalysis
   --------------------------------------------------------------------- -/

/-- JSON values as produced by `JSON.parse`. -/
inductive Json where
  | null
  | boolean (b : Bool)
  | num (n : Rat)
  | str (s : String)
  | arr (elems : List Json)
  | obj (fields : List (String × Json))

/-- Property lookup on parsed-object field lists (JSON.parse already resolves
duplicate keys, so the list has distinct keys and order is immaterial). -/
def jsLookup : List (String × Json) → String → Option Json
  | [], _ => none
  | (k, v) :: rest, key => if k = key then some v else jsLookup rest key

/-- `parsedJson.key`: a present field yields its value, a missing field (or a
field access on a primitive) yields `undefined` = `none`.  Access on `null`
throws and is handled separately. -/
def getProp (j : Json) (key : String) : Option Json :=
  match j with
  | .obj fields => jsLookup fields key
  | _ => none

/-- JS truthiness of a possibly-undefined JSON value (`!parsedJson.trends`). -/
def jsTruthyProp : Option Json → Bool
  | none => false
  | some .null => false
  | some (.boolean b) => b
  | some (.num n) => decide (n ≠ 0)
  | some (.str s) => !s.isEmpty
  | some (.arr _) => true
  | some (.obj _) => true

/-- `Array.isArray(parsedJson.key)`. -/
def isArrayProp : Option Json → Bool
  | some (.arr _) => true
  | _ => false

/-- What the Gemini SDK round trip produced before the repository's own code
runs: the SDK/HTTP call threw, or `JSON.parse(response.text.trim())` threw, or
it yielded a JSON value. -/
inductive VendorTextOutcome where
  | sdkError (msg : String)
  | parseFailure
  | parsed (j : Json)

def geminiApiErrorMessage : String :=
  "Failed to fetch analysis from Gemini API. Please check your API key and try again."

/-- `fetchViralAnalysis` from geminiService.ts.  Every throw inside the `try`
(SDK error, parse failure, the TypeError from property access on a `null`
parse result, and the explicit "Received malformed data from API." throw when
a field is falsy or not an array) is caught by the one catch block, which
rethrows the single fixed error message. -/
def fetchViralAnalysis (res : VendorTextOutcome) : Except String Json :=
  match res with
  | .sdkError _ => .error geminiApiErrorMessage
  | .parseFailure => .error geminiApiErrorMessage
  | .parsed j =>
    match j with
    | .null => .error geminiApiErrorMessage
    | _ =>
      let t := getProp j ("trends")
      let c := getProp j ("characteristics")
      let p := getProp j ("personas")
      if !jsTruthyProp t || !jsTruthyProp c || !jsTruthyProp p
          || !isArrayProp t || !isArrayProp c || !isArrayProp p then
        .error geminiApiErrorMessage
      else
        .ok j

/- ---------------------------------------------------------------------
   resembleService.ts : generateVoiceoverAudioUrl (ElevenLabs)
   --------------------------------------------------------------------- -/

/-- The POST request that `generateVoiceoverAudioUrl` assembles: endpoint URL,
`xi-api-key` and `Accept` headers, and the JSON body fields. -/
structure TtsRequest where
  url : String
  xiApiKey : String
  acceptHeader : String
  text : String
  modelId : String
  stability : Rat
  similarityBoost : Rat
  deriving DecidableEq, Repr

/-- The `fetch` response as the function observes it: HTTP ok flag,
`statusText`, the body read as text on the error path, and the object URL that
`URL.createObjectURL` mints for the body blob on the success path. -/
structure TtsResponse where
  ok : Bool
  statusText : String := ""
  bodyText : String := ""
  blobUrl : String := ""
  deriving DecidableEq, Repr

def ELEVENLABS_API_URL : String := "https://api.elevenlabs.io/v1"

def ttsRequestFor (apiKey text voiceId : String) : TtsRequest :=
  { url := ELEVENLABS_API_URL ++ "/text-to-speech/" ++ voiceId
    xiApiKey := apiKey
    acceptHeader := "audio/mpeg"
    text := text
    modelId := "eleven_multilingual_v2"
    stability := (0.5 : Rat)
    similarityBoost := (0.75 : Rat) }

/-- `generateVoiceoverAudioUrl` from resembleService.ts, returning the list of
HTTP requests it issued alongside its result; `doFetch` is the opaque network.
The catch block logs and rethrows, so the thrown errors pass through
unchanged. -/
def generateVoiceoverAudioUrl (apiKey : Option String)
    (doFetch : TtsRequest → TtsResponse) (text voiceId : String) :
    List TtsRequest × Except String String :=
  if !jsTruthyOpt apiKey then
    ([], .error ("ELEVENLABS_API_KEY environment variable not set."))
  else
    let req := ttsRequestFor (apiKey.getD "") text voiceId
    let resp := doFetch req
    if !resp.ok then
      ([req], .error ("Failed to generate voiceover: " ++ resp.statusText ++ " - " ++ resp.bodyText))
    else
      ([req], .ok resp.blobUrl)

/- ---------------------------------------------------------------------
   Helper lemmas : setScene / updateScene
   --------------------------------------------------------------------- -/

theorem setScene_length (l : List Scene) (i : Nat) (u : SceneUpdate) :
    (setScene l i u).length = l.length := by
  induction l generalizing i with
  | nil => rfl
  | cons s rest ih =>
    cases i with
    | zero => rfl
    | succ i => simp [setScene, ih]

theorem setScene_get?_ne (l : List Scene) (i : Nat) (u : SceneUpdate) (j : Nat)
    (h : j ≠ i) : (setScene l i u).get? j = l.get? j := by
  induction l generalizing i j with
  | nil => rfl
  | cons s rest ih =>
    cases i with
    | zero =>
      cases j with
      | zero => exact absurd rfl h
      | succ j => rfl
    | succ i =>
      cases j with
      | zero => rfl
      | succ j =>
        simpa [setScene] using ih i j (by omega)

theorem setScene_get?_self (l : List Scene) (i : Nat) (u : SceneUpdate) :
    (setScene l i u).get? i = (l.get? i).map (fun sc => applySceneUpdate sc u) := by
  induction l generalizing i with
  | nil => rfl
  | cons s rest ih =>
    cases i with
    | zero => rfl
    | succ i => simpa [setScene] using ih i

theorem updateScene_frame_fields (cur : ScriptResult) (i : Nat) (u : SceneUpdate) :
    (updateScene cur i u).hook = cur.hook ∧
    (updateScene cur i u).callToAction = cur.callToAction ∧
    (updateScene cur i u).suggestedSound = cur.suggestedSound ∧
    (updateScene cur i u).platformVariations = cur.platformVariations := by
  exact ⟨rfl, rfl, rfl, rfl⟩

theorem exceptBind_ok {ε α β : Type} (x : α) (f : α → Except ε β) :
    (Except.ok x : Except ε α).bind f = f x := rfl

/-- Reduction of `handleAddToRenderQueue` once the addressed scene is known. -/
theorem handleAdd_eq_of_get (s : ScriptResult) (i : Nat) (g : Scene)
    (hg : s.scenes.get? i = some g) :
    handleAddToRenderQueue (some s) i =
      if g.videoStatus = some VideoStatus.queued ∨
          g.videoStatus = some VideoStatus.processing ∨
          g.videoStatus = some VideoStatus.done then
        .ok (some s)
      else
        .ok (some { s with scenes := setScene s.scenes i enqueueUpdate }) := by
  simp only [handleAddToRenderQueue]
  rw [hg]

/- ---------------------------------------------------------------------
   Trace observables
   --------------------------------------------------------------------- -/

/-- The scene index an event concerns. -/
def evScene : Event → Nat
  | .update i _ => i
  | .submitCall i _ _ => i
  | .pollCall i _ => i
  | .intervalCleared i => i
  | .downloadCall i _ => i

/-- Scene indices of the `startVideoGeneration` calls, in emission order. -/
def submitIndices (evs : List Event) : List Nat :=
  evs.filterMap (fun e => match e with | .submitCall i _ _ => some i | _ => none)

/-- Firing times of the `checkVideoStatus` calls, in emission order. -/
def pollTimes (evs : List Event) : List Nat :=
  evs.filterMap (fun e => match e with | .pollCall _ tm => some tm | _ => none)

/-- A poll step on which the setInterval callback leaves the polling loop:
the call throws, or the operation reports done. -/
def isTerminalStep : PollStep → Bool
  | .throwErr _ => true
  | .result r => r.done

/-- Events of the ticks `t0, t0+1, …, t0+T-1` when none of them is terminal:
each firing cycles the loading message and polls once. -/
def nonTermEvents (idx : Nat) : Nat → Nat → List Event
  | _, 0 => []
  | t0, T + 1 =>
    Event.update idx (msgUpdate (t0 + 1)) ::
      Event.pollCall idx (POLL_INTERVAL_MS * (t0 + 1)) :: nonTermEvents idx (t0 + 1) T

/-- Events the item handler appends after the polling promise settles. -/
def itemTail (idx : Nat) : TickOutcome → List Event
  | .resolved => []
  | .rejected m => [Event.intervalCleared idx, Event.update idx (errorUpdate m)]
  | .continuePolling => []

/-- Item outcome determined by the settling tick. -/
def itemOutcomeOf : TickOutcome → ItemOutcome
  | .resolved => .success
  | .rejected _ => .failure
  | .continuePolling => .hung

/- ---------------------------------------------------------------------
   Helper lemmas : applyEvents
   --------------------------------------------------------------------- -/

theorem applyEvents_nil (st : ScriptResult) : applyEvents st [] = st := rfl

theorem applyEvents_append (st : ScriptResult) (a b : List Event) :
    applyEvents st (a ++ b) = applyEvents (applyEvents st a) b :=
  List.foldl_append _ _ _ _

theorem applyEvent_top_fields (st : ScriptResult) (e : Event) :
    (applyEvent st e).hook = st.hook ∧
    (applyEvent st e).callToAction = st.callToAction ∧
    (applyEvent st e).suggestedSound = st.suggestedSound ∧
    (applyEvent st e).platformVariations = st.platformVariations ∧
    (applyEvent st e).scenes.length = st.scenes.length := by
  cases e with
  | update i u => exact ⟨rfl, rfl, rfl, rfl, setScene_length _ _ _⟩
  | submitCall i p im => exact ⟨rfl, rfl, rfl, rfl, rfl⟩
  | pollCall i tm => exact ⟨rfl, rfl, rfl, rfl, rfl⟩
  | intervalCleared i => exact ⟨rfl, rfl, rfl, rfl, rfl⟩
  | downloadCall i u => exact ⟨rfl, rfl, rfl, rfl, rfl⟩

theorem applyEvents_top_fields (st : ScriptResult) (evs : List Event) :
    (applyEvents st evs).hook = st.hook ∧
    (applyEvents st evs).callToAction = st.callToAction ∧
    (applyEvents st evs).suggestedSound = st.suggestedSound ∧
    (applyEvents st evs).platformVariations = st.platformVariations ∧
    (applyEvents st evs).scenes.length = st.scenes.length := by
  induction evs generalizing st with
  | nil => exact ⟨rfl, rfl, rfl, rfl, rfl⟩
  | cons e rest ih =>
    have h1 := applyEvent_top_fields st e
    have h2 := ih (applyEvent st e)
    exact ⟨h2.1.trans h1.1, h2.2.1.trans h1.2.1, h2.2.2.1.trans h1.2.2.1,
      h2.2.2.2.1.trans h1.2.2.2.1, h2.2.2.2.2.trans h1.2.2.2.2⟩

theorem applyEvent_get?_ne (st : ScriptResult) (e : Event) (j : Nat)
    (h : evScene e ≠ j) : (applyEvent st e).scenes.get? j = st.scenes.get? j := by
  cases e with
  | update i u =>
    exact setScene_get?_ne _ _ _ _ (fun hji => h (hji ▸ rfl))
  | submitCall i p im => rfl
  | pollCall i tm => rfl
  | intervalCleared i => rfl
  | downloadCall i u => rfl

theorem applyEvents_get?_untouched (st : ScriptResult) (evs : List Event) (j : Nat)
    (h : ∀ e ∈ evs, evScene e ≠ j) :
    (applyEvents st evs).scenes.get? j = st.scenes.get? j := by
  induction evs generalizing st with
  | nil => rfl
  | cons e rest ih =>
    have h1 := applyEvent_get?_ne st e j (h e (List.mem_cons_self _ _))
    have h2 := ih (applyEvent st e) (fun e' he' => h e' (List.mem_cons_of_mem _ he'))
    exact h2.trans h1

/- ---------------------------------------------------------------------
   Helper lemmas : pollTick
   --------------------------------------------------------------------- -/

theorem pollTick_targets (env : Env) (idx t : Nat) :
    ∀ e ∈ (pollTick env idx t).1, evScene e = idx := by
  unfold pollTick
  rcases env.polls idx t with m | r
  · intro e he; fin_cases he <;> rfl
  · rcases r with ⟨d, er, dl⟩
    dsimp only
    cases d
    · rw [if_neg Bool.false_ne_true]
      intro e he; fin_cases he <;> rfl
    · rw [if_pos rfl]
      cases er
      · cases dl
        · intro e he; fin_cases he <;> rfl
        · dsimp only
          split
          · split
            · split
              · intro e he; fin_cases he <;> rfl
              · intro e he; fin_cases he <;> rfl
            · intro e he; fin_cases he <;> rfl
          · intro e he; fin_cases he <;> rfl
      · intro e he; fin_cases he <;> rfl

theorem pollTick_submitIndices (env : Env) (idx t : Nat) :
    submitIndices (pollTick env idx t).1 = [] := by
  unfold pollTick
  rcases env.polls idx t with m | r
  · rfl
  · rcases r with ⟨d, er, dl⟩
    dsimp only
    cases d
    · rw [if_neg Bool.false_ne_true]
      rfl
    · rw [if_pos rfl]
      cases er
      · cases dl
        · rfl
        · dsimp only
          split
          · split
            · split <;> rfl
            · rfl
          · rfl
      · rfl

theorem pollTick_pollTimes (env : Env) (idx t : Nat) :
    pollTimes (pollTick env idx t).1 = [POLL_INTERVAL_MS * (t + 1)] := by
  unfold pollTick
  rcases env.polls idx t with m | r
  · rfl
  · rcases r with ⟨d, er, dl⟩
    dsimp only
    cases d
    · rw [if_neg Bool.false_ne_true]
      rfl
    · rw [if_pos rfl]
      cases er
      · cases dl
        · rfl
        · dsimp only
          split
          · split
            · split <;> rfl
            · rfl
          · rfl
      · rfl

/-- A non-terminal tick cycles the message, polls once and keeps going. -/
theorem pollTick_nonterminal (env : Env) (idx t : Nat)
    (h : isTerminalStep (env.polls idx t) = false) :
    pollTick env idx t =
      ([Event.update idx (msgUpdate (t + 1)), Event.pollCall idx (POLL_INTERVAL_MS * (t + 1))],
        .continuePolling) := by
  unfold pollTick
  rcases hp : env.polls idx t with m | r
  · rw [hp] at h; simp [isTerminalStep] at h
  · rw [hp] at h
    simp only [isTerminalStep] at h
    dsimp only
    rw [h, if_neg Bool.false_ne_true]

/-- A terminal tick settles the polling promise. -/
theorem pollTick_terminal_not_continue (env : Env) (idx t : Nat)
    (h : isTerminalStep (env.polls idx t) = true) :
    (pollTick env idx t).2 ≠ TickOutcome.continuePolling := by
  revert h
  unfold pollTick
  rcases env.polls idx t with m | r
  · intro _ hc
    exact TickOutcome.noConfusion hc
  · rcases r with ⟨d, er, dl⟩
    dsimp only
    cases d
    · intro h
      simp [isTerminalStep] at h
    · intro _
      rw [if_pos rfl]
      cases er
      · cases dl
        · intro hc; exact TickOutcome.noConfusion hc
        · dsimp only
          split
          · split
            · split
              · intro hc; exact TickOutcome.noConfusion hc
              · intro hc; exact TickOutcome.noConfusion hc
            · intro hc; exact TickOutcome.noConfusion hc
          · intro hc; exact TickOutcome.noConfusion hc
      · intro hc; exact TickOutcome.noConfusion hc

/-- A tick only resolves right after pushing the done update: on the resolved
path the last emitted event marks the scene done. -/
theorem pollTick_resolved_shape (env : Env) (idx t : Nat)
    (h : (pollTick env idx t).2 = TickOutcome.resolved) :
    ∃ l url, (pollTick env idx t).1 = l ++ [Event.update idx (doneUpdate url)] := by
  revert h
  unfold pollTick
  rcases env.polls idx t with m | r
  · intro h; exact TickOutcome.noConfusion h
  · rcases r with ⟨d, er, dl⟩
    dsimp only
    cases d
    · rw [if_neg Bool.false_ne_true]
      intro h; exact TickOutcome.noConfusion h
    · rw [if_pos rfl]
      cases er
      · cases dl with
        | none => intro h; exact TickOutcome.noConfusion h
        | some link =>
          dsimp only
          split
          · split
            · split
              · intro _
                exact ⟨[Event.update idx (msgUpdate (t + 1)),
                        Event.pollCall idx (POLL_INTERVAL_MS * (t + 1)),
                        Event.intervalCleared idx,
                        Event.downloadCall idx (link ++ "&key=" ++ env.apiKey.getD "")],
                  (env.download idx).objectUrl, rfl⟩
              · intro h; exact TickOutcome.noConfusion h
            · intro h; exact TickOutcome.noConfusion h
          · intro h; exact TickOutcome.noConfusion h
      · intro h; exact TickOutcome.noConfusion h

/- ---------------------------------------------------------------------
   Helper lemmas : pollLoop
   --------------------------------------------------------------------- -/

/-- The poll outcome a settling tick produces. -/
def tickSettle : TickOutcome → PollOutcome
  | .continuePolling => .hung
  | .resolved => .settled (.ok ())
  | .rejected m => .settled (.error m)

theorem pollLoop_targets (env : Env) (idx : Nat) :
    ∀ fuel t0, ∀ e ∈ (pollLoop env idx fuel t0).1, evScene e = idx := by
  intro fuel
  induction fuel with
  | zero => intro t0 e he; exact absurd he (List.not_mem_nil _)
  | succ f ih =>
    intro t0 e he
    rw [pollLoop] at he
    rcases hpt : pollTick env idx t0 with ⟨evs, o⟩
    rw [hpt] at he
    cases o with
    | continuePolling =>
      simp only [List.mem_append] at he
      rcases he with he | he
      · exact pollTick_targets env idx t0 e (by rw [hpt]; exact he)
      · exact ih (t0 + 1) e he
    | resolved => exact pollTick_targets env idx t0 e (by rw [hpt]; exact he)
    | rejected m => exact pollTick_targets env idx t0 e (by rw [hpt]; exact he)

theorem submitIndices_append (a b : List Event) :
    submitIndices (a ++ b) = submitIndices a ++ submitIndices b := by
  simp [submitIndices]

theorem pollTimes_append (a b : List Event) :
    pollTimes (a ++ b) = pollTimes a ++ pollTimes b := by
  simp [pollTimes]

theorem pollLoop_submitIndices (env : Env) (idx : Nat) :
    ∀ fuel t0, submitIndices (pollLoop env idx fuel t0).1 = [] := by
  intro fuel
  induction fuel with
  | zero => intro t0; rfl
  | succ f ih =>
    intro t0
    rw [pollLoop]
    rcases hpt : pollTick env idx t0 with ⟨evs, o⟩
    have h1 : submitIndices evs = [] := by
      have := pollTick_submitIndices env idx t0
      rw [hpt] at this
      exact this
    cases o with
    | continuePolling =>
      show submitIndices (evs ++ (pollLoop env idx f (t0 + 1)).1) = []
      rw [submitIndices_append, h1, ih (t0 + 1)]
      rfl
    | resolved => exact h1
    | rejected m => exact h1

theorem pollLoop_resolved_shape (env : Env) (idx : Nat) :
    ∀ fuel t0, (pollLoop env idx fuel t0).2 = PollOutcome.settled (.ok ()) →
      ∃ l url, (pollLoop env idx fuel t0).1 = l ++ [Event.update idx (doneUpdate url)] := by
  intro fuel
  induction fuel with
  | zero => intro t0 h; exact absurd h (by intro hh; exact PollOutcome.noConfusion hh)
  | succ f ih =>
    intro t0 h
    rw [pollLoop] at h ⊢
    rcases hpt : pollTick env idx t0 with ⟨evs, o⟩
    rw [hpt] at h
    cases o with
    | continuePolling =>
      obtain ⟨l, url, hl⟩ := ih (t0 + 1) h
      refine ⟨evs ++ l, url, ?_⟩
      show evs ++ (pollLoop env idx f (t0 + 1)).1 = _
      rw [hl, List.append_assoc]
    | resolved =>
      obtain ⟨l, url, hl⟩ := pollTick_resolved_shape env idx t0 (by rw [hpt])
      rw [hpt] at hl
      exact ⟨l, url, hl⟩
    | rejected m =>
      have h' : PollOutcome.settled (Except.error m) = PollOutcome.settled (Except.ok ()) := h
      injection h' with h''
      exact Except.noConfusion h''

/-- Walking the polling loop to the first terminal tick: the loop shows one
cycled message and one `checkVideoStatus` call per 10-second firing, and
settles on the tick whose step is terminal. -/
theorem pollLoop_firstTerminal (env : Env) (idx : Nat) :
    ∀ (T fuel t0 : Nat),
      (∀ u, u < T → isTerminalStep (env.polls idx (t0 + u)) = false) →
      isTerminalStep (env.polls idx (t0 + T)) = true →
      T < fuel →
      pollLoop env idx fuel t0 =
        (nonTermEvents idx t0 T ++ (pollTick env idx (t0 + T)).1,
          tickSettle (pollTick env idx (t0 + T)).2) := by
  intro T
  induction T with
  | zero =>
    intro fuel t0 _ hterm hfuel
    cases fuel with
    | zero => exact absurd hfuel (by omega)
    | succ f =>
      rw [pollLoop]
      rcases hpt : pollTick env idx t0 with ⟨evs, o⟩
      have hnc : o ≠ TickOutcome.continuePolling := by
        have := pollTick_terminal_not_continue env idx t0 (by simpa using hterm)
        rw [hpt] at this
        exact this
      cases o with
      | continuePolling => exact absurd rfl hnc
      | resolved => simp [nonTermEvents, tickSettle, hpt]
      | rejected m => simp [nonTermEvents, tickSettle, hpt]
  | succ T ih =>
    intro fuel t0 hbefore hterm hfuel
    cases fuel with
    | zero => exact absurd hfuel (by omega)
    | succ f =>
      have h0 : isTerminalStep (env.polls idx t0) = false := by
        have := hbefore 0 (by omega)
        simpa using this
      have hpt := pollTick_nonterminal env idx t0 h0
      rw [pollLoop, hpt]
      have ihh := ih f (t0 + 1)
        (fun u hu => by
          have := hbefore (u + 1) (by omega)
          have harith : t0 + (u + 1) = t0 + 1 + u := by omega
          rw [harith] at this
          exact this)
        (by
          have harith : t0 + (T + 1) = t0 + 1 + T := by omega
          rw [harith] at hterm
          exact hterm)
        (by omega)
      rw [ihh]
      have harith : t0 + (T + 1) = t0 + 1 + T := by omega
      rw [harith, nonTermEvents]
      simp [List.append_assoc]

/- ---------------------------------------------------------------------
   Helper lemmas : processItem
   --------------------------------------------------------------------- -/

theorem processItem_targets (env : Env) (fuel : Nat) (pd : String) (idx : Nat) (item : Scene) :
    ∀ e ∈ (processItem env fuel pd idx item).1, evScene e = idx := by
  unfold processItem
  split
  · intro e he; fin_cases he <;> rfl
  · dsimp only
    split
    · intro e he; fin_cases he <;> rfl
    · split
      · intro e he; fin_cases he <;> rfl
      · rcases hp : pollLoop env idx fuel 0 with ⟨evs, o⟩
        have htg : ∀ e ∈ evs, evScene e = idx := by
          have := pollLoop_targets env idx fuel 0
          rw [hp] at this; exact this
        cases o with
        | settled r =>
          cases r with
          | ok u =>
            intro e he
            simp only [List.mem_cons] at he
            rcases he with rfl | rfl | he
            · rfl
            · rfl
            · exact htg e he
          | error m =>
            intro e he
            simp only [List.mem_cons, List.mem_append, List.not_mem_nil, or_false] at he
            rcases he with rfl | rfl | he | rfl | rfl
            · rfl
            · rfl
            · exact htg e he
            · rfl
            · rfl
        | hung =>
          intro e he
          simp only [List.mem_cons] at he
          rcases he with rfl | rfl | he
          · rfl
          · rfl
          · exact htg e he

theorem processItem_submitIndices (env : Env) (fuel : Nat) (pd : String) (idx : Nat)
    (item : Scene) : List.Sublist (submitIndices (processItem env fuel pd idx item).1) [idx] := by
  unfold processItem
  split
  · exact List.nil_sublist _
  · dsimp only
    split
    · exact List.nil_sublist _
    · split
      · exact List.Sublist.refl _
      · rcases hp : pollLoop env idx fuel 0 with ⟨evs, o⟩
        have h0 : submitIndices evs = [] := by
          have := pollLoop_submitIndices env idx fuel 0
          rw [hp] at this; exact this
        cases o with
        | settled r =>
          cases r with
          | ok u =>
            show List.Sublist (idx :: submitIndices evs) [idx]
            rw [h0]
          | error m =>
            show List.Sublist (idx :: submitIndices (evs ++ [Event.intervalCleared idx,
              Event.update idx (errorUpdate m)])) [idx]
            rw [submitIndices_append, h0]
            exact List.Sublist.refl _
        | hung =>
          show List.Sublist (idx :: submitIndices evs) [idx]
          rw [h0]

theorem processItem_failure_shape (env : Env) (fuel : Nat) (pd : String) (idx : Nat)
    (item : Scene) (h : (processItem env fuel pd idx item).2 = ItemOutcome.failure) :
    ∃ l m, (processItem env fuel pd idx item).1 = l ++ [Event.update idx (errorUpdate m)] := by
  revert h
  unfold processItem
  split
  · intro _
    exact ⟨[], missingImageMessage idx, rfl⟩
  · dsimp only
    split
    · intro _
      exact ⟨[Event.update idx processingUpdate], invalidDataUrlMessage, rfl⟩
    · rcases hs : env.submit idx with m | u
      · intro _
        exact ⟨[Event.update idx processingUpdate,
          Event.submitCall idx (mkPrompt item pd)
            { data := dataUrlPayload item, mimeType := mimeTypeOf (dataUrlHeader item) }], m, rfl⟩
      · rcases hp : pollLoop env idx fuel 0 with ⟨evs, o⟩
        cases o with
        | settled r =>
          cases r with
          | ok u => intro h; exact ItemOutcome.noConfusion h
          | error m =>
            intro _
            refine ⟨Event.update idx processingUpdate ::
              Event.submitCall idx (mkPrompt item pd)
                { data := dataUrlPayload item, mimeType := mimeTypeOf (dataUrlHeader item) } ::
              (evs ++ [Event.intervalCleared idx]), m, ?_⟩
            simp [List.append_assoc]
        | hung => intro h; exact ItemOutcome.noConfusion h

theorem processItem_success_shape (env : Env) (fuel : Nat) (pd : String) (idx : Nat)
    (item : Scene) (h : (processItem env fuel pd idx item).2 = ItemOutcome.success) :
    ∃ l url, (processItem env fuel pd idx item).1 = l ++ [Event.update idx (doneUpdate url)] := by
  revert h
  unfold processItem
  split
  · intro h; exact ItemOutcome.noConfusion h
  · dsimp only
    split
    · intro h; exact ItemOutcome.noConfusion h
    · split
      · intro h; exact ItemOutcome.noConfusion h
      · rcases hp : pollLoop env idx fuel 0 with ⟨evs, o⟩
        cases o with
        | settled r =>
          cases r with
          | ok u =>
            intro _
            obtain ⟨l, url, hl⟩ := pollLoop_resolved_shape env idx fuel 0 (by rw [hp])
            rw [hp] at hl
            refine ⟨Event.update idx processingUpdate ::
              Event.submitCall idx (mkPrompt item pd)
                { data := dataUrlPayload item, mimeType := mimeTypeOf (dataUrlHeader item) } :: l,
              url, ?_⟩
            have hevs : evs = l ++ [Event.update idx (doneUpdate url)] := hl
            rw [hevs]
            rfl
          | error m => intro h; exact ItemOutcome.noConfusion h
        | hung => intro h; exact ItemOutcome.noConfusion h

/-- The full walk of one successfully submitted item, up to and including the
first terminal polling tick. -/
theorem processItem_run (env : Env) (fuel : Nat) (pd : String) (idx T : Nat) (item : Scene)
    (himg : jsTruthyOpt item.imageUrl = true)
    (hhdr : (dataUrlHeader item).isEmpty = false)
    (hpay : (dataUrlPayload item).isEmpty = false)
    (hsub : env.submit idx = Except.ok ())
    (hbefore : ∀ u, u < T → isTerminalStep (env.polls idx u) = false)
    (hterm : isTerminalStep (env.polls idx T) = true)
    (hfuel : T < fuel) :
    processItem env fuel pd idx item =
      (Event.update idx processingUpdate ::
        Event.submitCall idx (mkPrompt item pd)
          { data := dataUrlPayload item, mimeType := mimeTypeOf (dataUrlHeader item) } ::
        (nonTermEvents idx 0 T ++ (pollTick env idx T).1 ++ itemTail idx (pollTick env idx T).2),
        itemOutcomeOf (pollTick env idx T).2) := by
  have hloop := pollLoop_firstTerminal env idx T fuel 0
    (fun u hu => by simpa using hbefore u hu) (by simpa using hterm) hfuel
  rw [Nat.zero_add] at hloop
  unfold processItem
  rw [himg]
  rw [if_neg (by decide)]
  dsimp only
  rw [hhdr, hpay]
  rw [if_neg (by decide)]
  rw [hsub]
  dsimp only
  rw [hloop]
  rcases ho : (pollTick env idx T).2 with _ | _ | m
  · exact absurd ho (pollTick_terminal_not_continue env idx T hterm)
  · dsimp only [tickSettle, itemTail, itemOutcomeOf]
    rw [List.append_nil]
  · dsimp only [tickSettle, itemTail, itemOutcomeOf]

def c2wScene : Scene :=
  { visual := "v"
    script := "hello"
    scriptType := .dialogue
    imageUrl := some ("data:image/png;base64,AAAA")
    videoStatus := some .queued }

def c2wResponse : PollResponse :=
  { done := true, downloadLink := some ("http://dl?alt=media") }

def c2wEnv : Env :=
  { apiKey := some ("K")
    submit := fun _ => .ok ()
    polls := fun _ _ => .result c2wResponse
    download := fun _ => { ok := true, objectUrl := "blob:video" } }

theorem pollTimes_nonTermEvents (idx : Nat) :
    ∀ T t0, pollTimes (nonTermEvents idx t0 T) =
      (List.range T).map (fun u => POLL_INTERVAL_MS * (t0 + u + 1)) := by
  intro T
  induction T with
  | zero => intro t0; rfl
  | succ T ih =>
    intro t0
    show POLL_INTERVAL_MS * (t0 + 1) :: pollTimes (nonTermEvents idx (t0 + 1) T) = _
    rw [ih (t0 + 1), List.range_succ_eq_map, List.map_cons, List.map_map]
    refine congrArg₂ _ (by norm_num) ?_
    apply List.map_congr_left
    intro u _
    show POLL_INTERVAL_MS * (t0 + 1 + u + 1) = POLL_INTERVAL_MS * (t0 + (u + 1) + 1)
    congr 1
    omega

/-- C4.  For a scene whose job is submitted, checkVideoStatus fires once per
fixed 10000 ms tick — the k-th call happens at time 10000·(k+1) — and polling
stops exactly at the first tick whose operation is done or whose step throws;
the interval is cleared there. -/
theorem claim_C4 (env : Env) (fuel : Nat) (pd : String) (idx T : Nat) (item : Scene)
    (himg : jsTruthyOpt item.imageUrl = true)
    (hhdr : (dataUrlHeader item).isEmpty = false)
    (hpay : (dataUrlPayload item).isEmpty = false)
    (hsub : env.submit idx = Except.ok ())
    (hbefore : ∀ u, u < T → isTerminalStep (env.polls idx u) = false)
    (hterm : isTerminalStep (env.polls idx T) = true)
    (hfuel : T < fuel) :
    pollTimes (processItem env fuel pd idx item).1 =
      (List.range (T + 1)).map (fun u => POLL_INTERVAL_MS * (u + 1)) ∧
    (pollTimes (processItem env fuel pd idx item).1).length = T + 1 ∧
    (∀ u, u < T + 1 →
      (pollTimes (processItem env fuel pd idx item).1).get? u =
        some (POLL_INTERVAL_MS * (u + 1))) ∧
    Event.intervalCleared idx ∈ (processItem env fuel pd idx item).1 := by
  have hmain := processItem_run env fuel pd idx T item himg hhdr hpay hsub hbefore hterm hfuel
  have htail : pollTimes (itemTail idx (pollTick env idx T).2) = [] := by
    rcases (pollTick env idx T).2 with _ | _ | m <;> rfl
  have htimes : pollTimes (processItem env fuel pd idx item).1 =
      (List.range (T + 1)).map (fun u => POLL_INTERVAL_MS * (u + 1)) := by
    rw [hmain]
    show pollTimes (nonTermEvents idx 0 T ++ (pollTick env idx T).1 ++
      itemTail idx (pollTick env idx T).2) = _
    rw [pollTimes_append, pollTimes_append, htail, List.append_nil,
      pollTimes_nonTermEvents, pollTick_pollTimes, List.range_succ, List.map_append]
    simp
  refine ⟨htimes, ?_, ?_, ?_⟩
  · rw [htimes]; simp
  · intro u hu
    rw [htimes, List.get?_map, List.get?_range hu]
    rfl
  · rw [hmain]
    have hterm' : Event.intervalCleared idx ∈ (pollTick env idx T).1 := by
      revert hterm
      unfold pollTick
      rcases env.polls idx T with m | rr
      · intro _; simp
      · rcases rr with ⟨d, er, dl⟩
        dsimp only
        cases d
        · intro h; simp [isTerminalStep] at h
        · intro _
          rw [if_pos rfl]
          cases er
          · cases dl
            · simp
            · dsimp only
              split
              · split
                · split <;> simp
                · simp
              · simp
          · simp
    exact List.mem_cons_of_mem _ (List.mem_cons_of_mem _
      (List.mem_append_left _ (List.mem_append_right _ hterm')))

def c4wEnv : Env :=
  { apiKey := some ("K")
    submit := fun _ => .ok ()
    polls := fun _ t => if t < 2 then .result { done := false } else .result c2wResponse
    download := fun _ => { ok := true, objectUrl := "blob:video" } }

/-- Witness for C4: with two pending ticks before the done tick, the three
checkVideoStatus calls happen at 10000, 20000 and 30000 ms and the interval is
cleared. -/
theorem claim_C4_witness :
    pollTimes (processItem c4wEnv 3 "p" 0 c2wScene).1 =
      (List.range (2 + 1)).map (fun u => POLL_INTERVAL_MS * (u + 1)) ∧
    (pollTimes (processItem c4wEnv 3 "p" 0 c2wScene).1).length = 2 + 1 ∧
    (∀ u, u < 2 + 1 →
      (pollTimes (processItem c4wEnv 3 "p" 0 c2wScene).1).get? u =
        some (POLL_INTERVAL_MS * (u + 1))) ∧
    Event.intervalCleared 0 ∈ (processItem c4wEnv 3 "p" 0 c2wScene).1 :=
  claim_C4 c4wEnv 3 "p" 0 2 c2wScene (by decide) (by decide) (by decide) rfl
    (by intro u hu; interval_cases u <;> rfl) (by rfl) (by decide)

/- ---------------------------------------------------------------------
   Claim C10 : data-URL validation and mime-type default
   --------------------------------------------------------------------- -/

/-- The message discipline of one event: an update that sets the scene to
'processing' carries the first loading message, and an update that only
touches the message (the polling ticks) carries a member of
`LOADING_MESSAGES`. -/
def messageEventOk : Event → Bool
  | .update _ u =>
    (decide (u.videoStatus ≠ some VideoStatus.processing) ||
      decide (u.videoGenerationMessage = some (some (LOADING_MESSAGES.getD 0 "")))) &&
    (u.videoStatus.isSome || u.videoUrl.isSome ||
      (match u.videoGenerationMessage with
       | some (some m) => LOADING_MESSAGES.contains m
       | _ => true))
  | _ => true

theorem tickMessage_mod_lt (k : Nat) :
    k % LOADING_MESSAGES.length < LOADING_MESSAGES.length :=
  Nat.mod_lt _ (by decide)

theorem tickMessage_mem (k : Nat) : tickMessage k ∈ LOADING_MESSAGES := by
  unfold tickMessage
  rw [List.getD_eq_get?, List.get?_eq_get (tickMessage_mod_lt k)]
  exact List.get_mem _ _ _

theorem messageEventOk_msgUpdate (i k : Nat) :
    messageEventOk (Event.update i (msgUpdate k)) = true := by
  have hmem := List.elem_eq_true_of_mem (tickMessage_mem k)
  unfold messageEventOk msgUpdate
  dsimp only
  rw [show (LOADING_MESSAGES.contains (tickMessage k)) = true from hmem]
  rfl

theorem messageEventOk_errorUpdate (i : Nat) (m : String) :
    messageEventOk (Event.update i (errorUpdate m)) = true := rfl

theorem messageEventOk_doneUpdate (i : Nat) (url : String) :
    messageEventOk (Event.update i (doneUpdate url)) = true := rfl

theorem messageEventOk_processing (i : Nat) :
    messageEventOk (Event.update i processingUpdate) = true := rfl

theorem pollTick_messageOk (env : Env) (idx t : Nat) :
    ∀ e ∈ (pollTick env idx t).1, messageEventOk e = true := by
  unfold pollTick
  rcases env.polls idx t with m | r
  · intro e he
    fin_cases he
    · exact messageEventOk_msgUpdate idx (t + 1)
    · rfl
    · rfl
  · rcases r with ⟨d, er, dl⟩
    dsimp only
    cases d
    · rw [if_neg Bool.false_ne_true]
      intro e he
      fin_cases he
      · exact messageEventOk_msgUpdate idx (t + 1)
      · rfl
    · rw [if_pos rfl]
      cases er
      · cases dl
        · intro e he
          fin_cases he
          · exact messageEventOk_msgUpdate idx (t + 1)
          · rfl
          · rfl
          · rfl
        · dsimp only
          split
          · split
            · split
              · intro e he
                fin_cases he
                · exact messageEventOk_msgUpdate idx (t + 1)
                · rfl
                · rfl
                · rfl
                · rfl
              · intro e he
                fin_cases he
                · exact messageEventOk_msgUpdate idx (t + 1)
                · rfl
                · rfl
                · rfl
                · rfl
            · intro e he
              fin_cases he
              · exact messageEventOk_msgUpdate idx (t + 1)
              · rfl
              · rfl
              · rfl
          · intro e he
            fin_cases he
            · exact messageEventOk_msgUpdate idx (t + 1)
            · rfl
            · rfl
            · rfl
      · intro e he
        fin_cases he
        · exact messageEventOk_msgUpdate idx (t + 1)
        · rfl
        · rfl
        · rfl

theorem pollLoop_messageOk (env : Env) (idx : Nat) :
    ∀ fuel t0, ∀ e ∈ (pollLoop env idx fuel t0).1, messageEventOk e = true := by
  intro fuel
  induction fuel with
  | zero => intro t0 e he; exact absurd he (List.not_mem_nil _)
  | succ f ih =>
    intro t0 e he
    rw [pollLoop] at he
    rcases hpt : pollTick env idx t0 with ⟨evs, o⟩
    rw [hpt] at he
    have hok : ∀ e ∈ evs, messageEventOk e = true := by
      intro e' he'
      exact pollTick_messageOk env idx t0 e' (by rw [hpt]; exact he')
    cases o with
    | continuePolling =>
      simp only [List.mem_append] at he
      rcases he with he | he
      · exact hok e he
      · exact ih (t0 + 1) e he
    | resolved => exact hok e he
    | rejected m => exact hok e he

theorem processItem_messageOk (env : Env) (fuel : Nat) (pd : String) (idx : Nat)
    (item : Scene) : ∀ e ∈ (processItem env fuel pd idx item).1, messageEventOk e = true := by
  unfold processItem
  split
  · intro e he
    fin_cases he
    exact messageEventOk_errorUpdate idx _
  · dsimp only
    split
    · intro e he
      fin_cases he
      · exact messageEventOk_processing idx
      · exact messageEventOk_errorUpdate idx _
    · split
      · intro e he
        fin_cases he
        · exact messageEventOk_processing idx
        · rfl
        · exact messageEventOk_errorUpdate idx _
      · rcases hp : pollLoop env idx fuel 0 with ⟨evs, o⟩
        have hok : ∀ e ∈ evs, messageEventOk e = true := by
          intro e' he'
          exact pollLoop_messageOk env idx fuel 0 e' (by rw [hp]; exact he')
        cases o with
        | settled rr =>
          cases rr with
          | ok u =>
            intro e he
            simp only [List.mem_cons] at he
            rcases he with rfl | rfl | he
            · exact messageEventOk_processing idx
            · rfl
            · exact hok e he
          | error m =>
            intro e he
            simp only [List.mem_cons, List.mem_append, List.not_mem_nil, or_false] at he
            rcases he with rfl | rfl | he | rfl | rfl
            · exact messageEventOk_processing idx
            · rfl
            · exact hok e he
            · rfl
            · exact messageEventOk_errorUpdate idx _
        | hung =>
          intro e he
          simp only [List.mem_cons] at he
          rcases he with rfl | rfl | he
          · exact messageEventOk_processing idx
          · rfl
          · exact hok e he

theorem processItems_messageOk (env : Env) (fuel : Nat) (pd : String) :
    ∀ items st, ∀ e ∈ (processItems env fuel pd items st).events, messageEventOk e = true := by
  intro items
  induction items with
  | nil => intro st e he; exact absurd he (List.not_mem_nil _)
  | cons hd rest ih =>
    intro st e he
    rcases hd with ⟨idx, item⟩
    rw [processItems] at he
    rcases hpi : processItem env fuel pd idx item with ⟨evs, o⟩
    rw [hpi] at he
    have hok : ∀ e ∈ evs, messageEventOk e = true := by
      intro e' he'
      exact processItem_messageOk env fuel pd idx item e' (by rw [hpi]; exact he')
    cases o with
    | success =>
      simp only [List.mem_append] at he
      rcases he with he | he
      · exact hok e he
      · exact ih (applyEvents st evs) e he
    | failure => exact hok e he
    | hung => exact hok e he

/-- C9.  The loading message shown while a scene's video is generated is
always a member of the fixed 9-entry list: the mod-reduced index is always in
bounds, the update that enters 'processing' carries the first message, and
every message-only update carries a list member. -/
theorem claim_C9 (env : Env) (fuel : Nat) (pd : String) (s : ScriptResult) :
    LOADING_MESSAGES.length = 9 ∧
    (∀ k, k % LOADING_MESSAGES.length < LOADING_MESSAGES.length) ∧
    (∀ k, tickMessage k ∈ LOADING_MESSAGES) ∧
    (processQueue env fuel pd s).events.all messageEventOk = true := by
  refine ⟨rfl, tickMessage_mod_lt, tickMessage_mem, ?_⟩
  rw [List.all_eq_true]
  intro e he
  exact processItems_messageOk env fuel pd (itemsToProcess s) s e he

/- ---------------------------------------------------------------------
   Claim C5 : frame property of a processQueue run
   --------------------------------------------------------------------- -/

/-- All scene fields other than videoStatus, videoUrl and
videoGenerationMessage agree. -/
def sceneFrame (a b : Scene) : Prop :=
  a.visual = b.visual ∧ a.script = b.script ∧ a.scriptType = b.scriptType ∧
  a.imageUrl = b.imageUrl ∧ a.interactionPrompt = b.interactionPrompt ∧
  a.voiceoverAudioUrl = b.voiceoverAudioUrl ∧ a.isGeneratingImage = b.isGeneratingImage ∧
  a.isGeneratingVoiceover = b.isGeneratingVoiceover

def optSceneFrame : Option Scene → Option Scene → Prop
  | none, none => True
  | some a, some b => sceneFrame a b
  | _, _ => False

theorem sceneFrame_refl (a : Scene) : sceneFrame a a :=
  ⟨rfl, rfl, rfl, rfl, rfl, rfl, rfl, rfl⟩

theorem sceneFrame_trans {a b c : Scene} (h1 : sceneFrame a b) (h2 : sceneFrame b c) :
    sceneFrame a c := by
  obtain ⟨x1, x2, x3, x4, x5, x6, x7, x8⟩ := h1
  obtain ⟨y1, y2, y3, y4, y5, y6, y7, y8⟩ := h2
  exact ⟨x1.trans y1, x2.trans y2, x3.trans y3, x4.trans y4, x5.trans y5,
    x6.trans y6, x7.trans y7, x8.trans y8⟩

theorem sceneFrame_applySceneUpdate (s : Scene) (u : SceneUpdate) :
    sceneFrame s (applySceneUpdate s u) :=
  ⟨rfl, rfl, rfl, rfl, rfl, rfl, rfl, rfl⟩

theorem optSceneFrame_refl (o : Option Scene) : optSceneFrame o o := by
  cases o
  · trivial
  · exact sceneFrame_refl _

theorem optSceneFrame_trans {a b c : Option Scene}
    (h1 : optSceneFrame a b) (h2 : optSceneFrame b c) : optSceneFrame a c := by
  cases a <;> cases b <;> cases c <;> first
    | trivial
    | exact absurd h1 not_false
    | exact absurd h2 not_false
    | exact sceneFrame_trans h1 h2

theorem optSceneFrame_applyEvent (st : ScriptResult) (e : Event) (j : Nat) :
    optSceneFrame (st.scenes.get? j) ((applyEvent st e).scenes.get? j) := by
  cases e with
  | update i u =>
    by_cases hij : j = i
    · subst hij
      show optSceneFrame (st.scenes.get? j) ((setScene st.scenes j u).get? j)
      rw [setScene_get?_self]
      cases st.scenes.get? j
      · trivial
      · exact sceneFrame_applySceneUpdate _ _
    · show optSceneFrame (st.scenes.get? j) ((setScene st.scenes i u).get? j)
      rw [setScene_get?_ne _ _ _ _ hij]
      exact optSceneFrame_refl _
  | submitCall i p im => exact optSceneFrame_refl _
  | pollCall i tm => exact optSceneFrame_refl _
  | intervalCleared i => exact optSceneFrame_refl _
  | downloadCall i u => exact optSceneFrame_refl _

theorem optSceneFrame_applyEvents (evs : List Event) :
    ∀ st j, optSceneFrame (st.scenes.get? j) ((applyEvents st evs).scenes.get? j) := by
  induction evs with
  | nil => intro st j; exact optSceneFrame_refl _
  | cons e rest ih =>
    intro st j
    exact optSceneFrame_trans (optSceneFrame_applyEvent st e j) (ih (applyEvent st e) j)

/-- The final state of a loop run is the initial state with the run's update
events applied. -/
theorem processItems_final_eq (env : Env) (fuel : Nat) (pd : String) :
    ∀ items st, (processItems env fuel pd items st).final =
      applyEvents st (processItems env fuel pd items st).events := by
  intro items
  induction items with
  | nil => intro st; rfl
  | cons hd rest ih =>
    intro st
    rcases hd with ⟨idx, item⟩
    rw [processItems]
    rcases hpi : processItem env fuel pd idx item with ⟨evs, o⟩
    cases o with
    | success =>
      dsimp only
      rw [ih (applyEvents st evs), applyEvents_append]
    | failure => rfl
    | hung => rfl

/-- C5.  A run of processQueue changes, for each scene, only videoStatus,
videoUrl and videoGenerationMessage; every other scene field and the script's
hook, callToAction, suggestedSound and platformVariations are unchanged, and
the scene count is preserved.  The embedding's event vocabulary (updateScene,
startVideoGeneration, checkVideoStatus, clearInterval, fetch) is exhaustive
for the source function, which invokes no persistence API. -/
theorem claim_C5 (env : Env) (fuel : Nat) (pd : String) (s : ScriptResult) :
    (processQueue env fuel pd s).final.hook = s.hook ∧
    (processQueue env fuel pd s).final.callToAction = s.callToAction ∧
    (processQueue env fuel pd s).final.suggestedSound = s.suggestedSound ∧
    (processQueue env fuel pd s).final.platformVariations = s.platformVariations ∧
    (processQueue env fuel pd s).final.scenes.length = s.scenes.length ∧
    ∀ j, optSceneFrame (s.scenes.get? j) ((processQueue env fuel pd s).final.scenes.get? j) := by
  have hfin : (processQueue env fuel pd s).final =
      applyEvents s (processQueue env fuel pd s).events :=
    processItems_final_eq env fuel pd (itemsToProcess s) s
  rw [hfin]
  obtain ⟨h1, h2, h3, h4, h5⟩ := applyEvents_top_fields s (processQueue env fuel pd s).events
  exact ⟨h1, h2, h3, h4, h5, fun j => optSceneFrame_applyEvents _ s j⟩

/- ---------------------------------------------------------------------
   Claims C1/C3 : processing-status invariant and failure isolation
   --------------------------------------------------------------------- -/

/-- Scene `j` of the state exists and has videoStatus 'processing'. -/
def procAt (st : ScriptResult) (j : Nat) : Prop :=
  ∃ sc, st.scenes.get? j = some sc ∧ sc.videoStatus = some VideoStatus.processing

/-- No scene of the state is 'processing'. -/
def NoProc (st : ScriptResult) : Prop := ∀ j, ¬ procAt st j

/-- Only scene `idx` may be 'processing'. -/
def OnlyAt (st : ScriptResult) (idx : Nat) : Prop := ∀ j, procAt st j → j = idx

theorem OnlyAt_of_NoProc {st : ScriptResult} (h : NoProc st) (idx : Nat) : OnlyAt st idx :=
  fun j hj => absurd hj (h j)

theorem OnlyAt_applyEvent {st : ScriptResult} {idx : Nat} (e : Event)
    (h : OnlyAt st idx) (he : evScene e = idx) : OnlyAt (applyEvent st e) idx := by
  cases e with
  | update i u =>
    intro j hj
    by_cases hji : j = i
    · exact hji.trans he
    · apply h j
      obtain ⟨sc, hget, hst⟩ := hj
      refine ⟨sc, ?_, hst⟩
      rw [← hget]
      exact (setScene_get?_ne _ _ _ _ hji).symm
  | submitCall i p im => exact h
  | pollCall i tm => exact h
  | intervalCleared i => exact h
  | downloadCall i u => exact h

theorem OnlyAt_applyEvents {idx : Nat} (evs : List Event)
    (hall : ∀ e ∈ evs, evScene e = idx) :
    ∀ st, OnlyAt st idx → OnlyAt (applyEvents st evs) idx := by
  induction evs with
  | nil => intro st h; exact h
  | cons e rest ih =>
    intro st h
    exact ih (fun e' he' => hall e' (List.mem_cons_of_mem _ he')) (applyEvent st e)
      (OnlyAt_applyEvent e h (hall e (List.mem_cons_self _ _)))

theorem OnlyAt_applyEvents_take {idx : Nat} (evs : List Event)
    (hall : ∀ e ∈ evs, evScene e = idx) :
    ∀ st, OnlyAt st idx → ∀ k, OnlyAt (applyEvents st (evs.take k)) idx := by
  intro st h k
  refine OnlyAt_applyEvents (evs.take k) ?_ st h
  intro e he
  exact hall e (List.mem_of_mem_take he)

/-- After a terminal update that sets the only possibly-processing scene to
'done' or 'error', nothing is processing. -/
theorem NoProc_kill {st : ScriptResult} {idx : Nat} (u : SceneUpdate)
    (h : OnlyAt st idx)
    (hu : u.videoStatus = some VideoStatus.done ∨ u.videoStatus = some VideoStatus.error) :
    NoProc (updateScene st idx u) := by
  intro j hj
  obtain ⟨sc, hget, hst⟩ := hj
  by_cases hji : j = idx
  · subst hji
    rw [show (updateScene st j u).scenes = setScene st.scenes j u from rfl,
      setScene_get?_self] at hget
    rcases hg0 : st.scenes.get? j with _ | sc0
    · rw [hg0] at hget; exact Option.noConfusion hget
    · rw [hg0] at hget
      have hsc : sc = applySceneUpdate sc0 u := (Option.some_injective _ hget).symm
      subst hsc
      rcases hu with hu | hu <;>
        · rw [show (applySceneUpdate sc0 u).videoStatus =
              overrideOpt sc0.videoStatus (u.videoStatus.map some) from rfl, hu] at hst
          exact VideoStatus.noConfusion (Option.some_injective _ hst)
  · have : procAt st j := by
      refine ⟨sc, ?_, hst⟩
      rw [← hget]
      exact (setScene_get?_ne _ _ _ _ hji).symm
    exact absurd (h j this) hji

/-- An item handler that returns (success or failure) leaves nothing
processing, provided only its own scene could have been processing. -/
theorem processItem_NoProc_after (env : Env) (fuel : Nat) (pd : String) (idx : Nat)
    (item : Scene) (st : ScriptResult) (h : OnlyAt st idx)
    (hout : (processItem env fuel pd idx item).2 ≠ ItemOutcome.hung) :
    NoProc (applyEvents st (processItem env fuel pd idx item).1) := by
  have htg := processItem_targets env fuel pd idx item
  rcases ho : (processItem env fuel pd idx item).2 with _ | _ | _
  · obtain ⟨l, url, hl⟩ := processItem_success_shape env fuel pd idx item ho
    rw [hl]
    rw [applyEvents_append]
    have h1 : OnlyAt (applyEvents st l) idx := by
      refine OnlyAt_applyEvents l ?_ st h
      intro e he
      exact htg e (by rw [hl]; exact List.mem_append_left _ he)
    show NoProc (updateScene (applyEvents st l) idx (doneUpdate url))
    exact NoProc_kill _ h1 (Or.inl rfl)
  · obtain ⟨l, m, hl⟩ := processItem_failure_shape env fuel pd idx item ho
    rw [hl]
    rw [applyEvents_append]
    have h1 : OnlyAt (applyEvents st l) idx := by
      refine OnlyAt_applyEvents l ?_ st h
      intro e he
      exact htg e (by rw [hl]; exact List.mem_append_left _ he)
    show NoProc (updateScene (applyEvents st l) idx (errorUpdate m))
    exact NoProc_kill _ h1 (Or.inr rfl)
  · exact absurd ho hout

/-- At most one scene is 'processing'. -/
def AtMostOne (st : ScriptResult) : Prop := ∀ j l, procAt st j → procAt st l → j = l

theorem AtMostOne_of_OnlyAt {st : ScriptResult} {idx : Nat} (h : OnlyAt st idx) :
    AtMostOne st := fun j l hj hl => (h j hj).trans (h l hl).symm

/-- The run invariant: starting from a state with nothing processing, every
prefix of the run's events leads to a state with at most one processing
scene. -/
theorem processItems_atMostOne (env : Env) (fuel : Nat) (pd : String) :
    ∀ items st, NoProc st →
      ∀ k, AtMostOne (applyEvents st ((processItems env fuel pd items st).events.take k)) := by
  intro items
  induction items with
  | nil =>
    intro st h k
    show AtMostOne (applyEvents st (([] : List Event).take k))
    rw [List.take_nil]
    exact AtMostOne_of_OnlyAt (OnlyAt_of_NoProc h 0)
  | cons hd rest ih =>
    intro st h k
    rcases hd with ⟨idx, item⟩
    have htg := processItem_targets env fuel pd idx item
    rw [processItems]
    rcases hpi : processItem env fuel pd idx item with ⟨evs, o⟩
    have htg' : ∀ e ∈ evs, evScene e = idx := by
      intro e he; exact htg e (by rw [hpi]; exact he)
    have hpre : ∀ k', OnlyAt (applyEvents st (evs.take k')) idx :=
      OnlyAt_applyEvents_take evs htg' st (OnlyAt_of_NoProc h idx)
    cases o with
    | success =>
      dsimp only
      rw [List.take_append_eq_append_take, applyEvents_append]
      by_cases hk : k ≤ evs.length
      · have : k - evs.length = 0 := by omega
        rw [this, List.take_zero, applyEvents_nil]
        exact AtMostOne_of_OnlyAt (hpre k)
      · rw [List.take_all_of_le (by omega)]
        have hnp : NoProc (applyEvents st evs) := by
          have : NoProc (applyEvents st (processItem env fuel pd idx item).1) :=
            processItem_NoProc_after env fuel pd idx item st (OnlyAt_of_NoProc h idx)
              (by rw [hpi]; exact fun hh => ItemOutcome.noConfusion hh)
          rw [hpi] at this
          exact this
        exact ih (applyEvents st evs) hnp (k - evs.length)
    | failure =>
      dsimp only
      exact AtMostOne_of_OnlyAt (hpre k)
    | hung =>
      dsimp only
      exact AtMostOne_of_OnlyAt (hpre k)

/-- At the moment a submission is issued, only the submitted scene can be
'processing'. -/
theorem processItems_submitPos (env : Env) (fuel : Nat) (pd : String) :
    ∀ items st, NoProc st →
      ∀ k j p im,
        (processItems env fuel pd items st).events.get? k = some (Event.submitCall j p im) →
        ∀ l, procAt (applyEvents st ((processItems env fuel pd items st).events.take k)) l →
          l = j := by
  intro items
  induction items with
  | nil =>
    intro st h k j p im hk
    exact absurd hk (by simp [processItems])
  | cons hd rest ih =>
    intro st h k j p im hk l hl
    rcases hd with ⟨idx, item⟩
    have htg := processItem_targets env fuel pd idx item
    rw [processItems] at hk hl
    rcases hpi : processItem env fuel pd idx item with ⟨evs, o⟩
    rw [hpi] at hk hl
    have htg' : ∀ e ∈ evs, evScene e = idx := by
      intro e he; exact htg e (by rw [hpi]; exact he)
    have hpre : ∀ k', OnlyAt (applyEvents st (evs.take k')) idx :=
      OnlyAt_applyEvents_take evs htg' st (OnlyAt_of_NoProc h idx)
    have hsubeq : ∀ hmem : Event.submitCall j p im ∈ evs, j = idx := by
      intro hmem
      exact htg' _ hmem
    cases o with
    | success =>
      dsimp only at hk hl
      by_cases hklen : k < evs.length
      · have hkev : evs.get? k = some (Event.submitCall j p im) := by
          rw [← List.get?_append hklen]
          exact hk
        have hj : j = idx := hsubeq (List.get?_mem hkev)
        rw [List.take_append_eq_append_take, show k - evs.length = 0 by omega,
          List.take_zero, List.append_nil] at hl
        exact (hpre k l hl).trans hj.symm
      · have hle : evs.length ≤ k := by omega
        have hkev : (processItems env fuel pd rest (applyEvents st evs)).events.get?
            (k - evs.length) = some (Event.submitCall j p im) := by
          rw [← List.get?_append_right hle]
          exact hk
        have hnp : NoProc (applyEvents st evs) := by
          have : NoProc (applyEvents st (processItem env fuel pd idx item).1) :=
            processItem_NoProc_after env fuel pd idx item st (OnlyAt_of_NoProc h idx)
              (by rw [hpi]; exact fun hh => ItemOutcome.noConfusion hh)
          rw [hpi] at this
          exact this
        rw [List.take_append_eq_append_take, List.take_all_of_le hle,
          applyEvents_append] at hl
        exact ih (applyEvents st evs) hnp (k - evs.length) j p im hkev l hl
    | failure =>
      dsimp only at hk hl
      have hklen : k < evs.length := by
        by_contra hc
        rw [List.get?_eq_none.mpr (by omega)] at hk
        exact Option.noConfusion hk
      have hkev : evs.get? k = some (Event.submitCall j p im) := hk
      have hj : j = idx := hsubeq (List.get?_mem hkev)
      exact (hpre k l hl).trans hj.symm
    | hung =>
      dsimp only at hk hl
      have hklen : k < evs.length := by
        by_contra hc
        rw [List.get?_eq_none.mpr (by omega)] at hk
        exact Option.noConfusion hk
      have hkev : evs.get? k = some (Event.submitCall j p im) := hk
      have hj : j = idx := hsubeq (List.get?_mem hkev)
      exact (hpre k l hl).trans hj.symm

/-- The submission order of a run follows the (strictly increasing) item
order, each item submitting at most once. -/
theorem processItems_submitIndices_sublist (env : Env) (fuel : Nat) (pd : String) :
    ∀ items st, List.Sublist (submitIndices (processItems env fuel pd items st).events)
      (items.map Prod.fst) := by
  intro items
  induction items with
  | nil => intro st; exact List.nil_sublist _
  | cons hd rest ih =>
    intro st
    rcases hd with ⟨idx, item⟩
    rw [processItems]
    rcases hpi : processItem env fuel pd idx item with ⟨evs, o⟩
    have h1 : List.Sublist (submitIndices evs) [idx] := by
      have := processItem_submitIndices env fuel pd idx item
      rw [hpi] at this
      exact this
    cases o with
    | success =>
      dsimp only
      rw [submitIndices_append]
      exact List.Sublist.append h1 (ih (applyEvents st evs))
    | failure =>
      dsimp only
      exact h1.trans ((List.nil_sublist _).cons₂ idx)
    | hung =>
      dsimp only
      exact h1.trans ((List.nil_sublist _).cons₂ idx)

theorem itemsToProcess_fst_pairwise (s : ScriptResult) :
    List.Pairwise (· < ·) ((itemsToProcess s).map Prod.fst) := by
  have hsub : List.Sublist (itemsToProcess s) s.scenes.enum := List.filter_sublist _
  have hmap : List.Sublist ((itemsToProcess s).map Prod.fst)
      (s.scenes.enum.map Prod.fst) := hsub.map _
  rw [List.enum_map_fst] at hmap
  exact (List.pairwise_lt_range _).sublist hmap

/-- C1.  Queued scenes are submitted sequentially in strictly increasing
scene-index order; starting from a state with no scene 'processing', at every
prefix of the run at most one scene is 'processing', and at the moment a
scene's job is submitted no other scene is 'processing' — the previous scene
has already reached 'done' or 'error'. -/
theorem claim_C1 (env : Env) (fuel : Nat) (pd : String) (s : ScriptResult)
    (h : ∀ sc ∈ s.scenes, sc.videoStatus ≠ some VideoStatus.processing) :
    List.Pairwise (· < ·) (submitIndices (processQueue env fuel pd s).events) ∧
    (∀ k j l,
      procAt (applyEvents s ((processQueue env fuel pd s).events.take k)) j →
      procAt (applyEvents s ((processQueue env fuel pd s).events.take k)) l → j = l) ∧
    (∀ k j p im,
      (processQueue env fuel pd s).events.get? k = some (Event.submitCall j p im) →
      ∀ l, procAt (applyEvents s ((processQueue env fuel pd s).events.take k)) l → l = j) := by
  have hnp : NoProc s := by
    intro j hj
    obtain ⟨sc, hget, hst⟩ := hj
    exact absurd hst (h sc (List.get?_mem hget))
  refine ⟨?_, ?_, ?_⟩
  · exact (itemsToProcess_fst_pairwise s).sublist
      (processItems_submitIndices_sublist env fuel pd (itemsToProcess s) s)
  · intro k j l hj hl
    exact processItems_atMostOne env fuel pd (itemsToProcess s) s hnp k j l hj hl
  · intro k j p im hk l hl
    exact processItems_submitPos env fuel pd (itemsToProcess s) s hnp k j p im hk l hl

def c1wScript : ScriptResult :=
  { hook := ⟨"h", "v", "t"⟩
    scenes := [c2wScene, { c2wScene with visual := "w" }]
    callToAction := "c"
    suggestedSound := "m" }

/-- Witness for C1 at a concrete two-scene queued script with a clean initial
state: the submissions of the run are strictly increasing. -/
theorem claim_C1_witness :
    List.Pairwise (· < ·) (submitIndices (processQueue c2wEnv 1 "p" c1wScript).events) :=
  (claim_C1 c2wEnv 1 "p" c1wScript (by decide)).1

theorem processItems_broke_mem (env : Env) (fuel : Nat) (pd : String) :
    ∀ items st i, (processItems env fuel pd items st).outcome = RunOutcome.broke i →
      i ∈ items.map Prod.fst := by
  intro items
  induction items with
  | nil => intro st i h; exact absurd h (by simp [processItems])
  | cons hd rest ih =>
    intro st i h
    rcases hd with ⟨idx, item⟩
    rw [processItems] at h
    rcases hpi : processItem env fuel pd idx item with ⟨evs, o⟩
    rw [hpi] at h
    cases o with
    | success =>
      dsimp only at h
      exact List.mem_cons_of_mem _ (ih (applyEvents st evs) i h)
    | failure =>
      dsimp only at h
      have : idx = i := RunOutcome.broke.inj h
      rw [← this]
      exact List.mem_cons_self _ _
    | hung =>
      dsimp only at h
      exact RunOutcome.noConfusion h

theorem processItems_broke_untouched (env : Env) (fuel : Nat) (pd : String) :
    ∀ items st i, (processItems env fuel pd items st).outcome = RunOutcome.broke i →
      List.Pairwise (· < ·) (items.map Prod.fst) →
      ∀ j, i < j → ∀ e ∈ (processItems env fuel pd items st).events, evScene e ≠ j := by
  intro items
  induction items with
  | nil => intro st i h; exact absurd h (by simp [processItems])
  | cons hd rest ih =>
    intro st i h hpw j hij e he
    rcases hd with ⟨idx, item⟩
    rw [processItems] at h he
    rcases hpi : processItem env fuel pd idx item with ⟨evs, o⟩
    rw [hpi] at h he
    have htg : ∀ e ∈ evs, evScene e = idx := by
      intro e' he'
      have := processItem_targets env fuel pd idx item
      exact this e' (by rw [hpi]; exact he')
    cases o with
    | success =>
      dsimp only at h he
      rcases List.mem_append.mp he with he | he
      · have hidx : idx < i := by
          have himem := processItems_broke_mem env fuel pd rest (applyEvents st evs) i h
          exact (List.pairwise_cons.mp hpw).1 i himem
        rw [htg e he]
        omega
      · exact ih (applyEvents st evs) i h (List.pairwise_cons.mp hpw).2 j hij e he
    | failure =>
      dsimp only at h he
      have : idx = i := RunOutcome.broke.inj h
      rw [htg e he, this]
      omega
    | hung =>
      dsimp only at h
      exact RunOutcome.noConfusion h

theorem processItems_broke_lastError (env : Env) (fuel : Nat) (pd : String) :
    ∀ items st i, (processItems env fuel pd items st).outcome = RunOutcome.broke i →
      ∃ l m, (processItems env fuel pd items st).events =
        l ++ [Event.update i (errorUpdate m)] := by
  intro items
  induction items with
  | nil => intro st i h; exact absurd h (by simp [processItems])
  | cons hd rest ih =>
    intro st i h
    rcases hd with ⟨idx, item⟩
    rw [processItems] at h ⊢
    rcases hpi : processItem env fuel pd idx item with ⟨evs, o⟩
    rw [hpi] at h
    cases o with
    | success =>
      dsimp only at h ⊢
      obtain ⟨l, m, hl⟩ := ih (applyEvents st evs) i h
      refine ⟨evs ++ l, m, ?_⟩
      rw [hl, List.append_assoc]
    | failure =>
      dsimp only at h ⊢
      have hidx : idx = i := RunOutcome.broke.inj h
      subst hidx
      obtain ⟨l, m, hl⟩ := processItem_failure_shape env fuel pd idx item (by rw [hpi])
      rw [hpi] at hl
      exact ⟨l, m, hl⟩
    | hung =>
      dsimp only at h
      exact RunOutcome.noConfusion h

/-- C3.  No retry/backoff: each queued scene is submitted at most once per run
(submission indices are strictly increasing), and when the run breaks at scene
`i`, that scene's videoStatus is 'error' while every scene after it is left
exactly as it was — untouched by any event, hence still 'queued' if it was
queued — and is never submitted. -/
theorem claim_C3 (env : Env) (fuel : Nat) (pd : String) (s : ScriptResult) :
    List.Pairwise (· < ·) (submitIndices (processQueue env fuel pd s).events) ∧
    ∀ i, (processQueue env fuel pd s).outcome = RunOutcome.broke i →
      ((∃ sc, (processQueue env fuel pd s).final.scenes.get? i = some sc ∧
          sc.videoStatus = some VideoStatus.error) ∧
        ∀ j, i < j →
          (processQueue env fuel pd s).final.scenes.get? j = s.scenes.get? j ∧
          ∀ e ∈ (processQueue env fuel pd s).events, evScene e ≠ j) := by
  constructor
  · exact (itemsToProcess_fst_pairwise s).sublist
      (processItems_submitIndices_sublist env fuel pd (itemsToProcess s) s)
  · intro i hbroke
    have hfin : (processQueue env fuel pd s).final =
        applyEvents s (processQueue env fuel pd s).events :=
      processItems_final_eq env fuel pd (itemsToProcess s) s
    constructor
    · -- the failing scene ends in 'error'
      have hilen : i < s.scenes.length := by
        have hmem := processItems_broke_mem env fuel pd (itemsToProcess s) s i hbroke
        have hsub : List.Sublist ((itemsToProcess s).map Prod.fst)
            (s.scenes.enum.map Prod.fst) := (List.filter_sublist _).map _
        rw [List.enum_map_fst] at hsub
        exact List.mem_range.mp (hsub.mem hmem)
      obtain ⟨l, m, hl⟩ := processItems_broke_lastError env fuel pd (itemsToProcess s) s i hbroke
      have hl' : (processQueue env fuel pd s).events = l ++ [Event.update i (errorUpdate m)] := hl
      rw [hfin, hl', applyEvents_append]
      have hlen : (applyEvents s l).scenes.length = s.scenes.length :=
        (applyEvents_top_fields s l).2.2.2.2
      obtain ⟨sc0, hsc0⟩ : ∃ sc0, (applyEvents s l).scenes.get? i = some sc0 :=
        ⟨_, List.get?_eq_get (by omega)⟩
      refine ⟨applySceneUpdate sc0 (errorUpdate m), ?_, rfl⟩
      show (setScene (applyEvents s l).scenes i (errorUpdate m)).get? i = _
      rw [setScene_get?_self, hsc0]
      rfl
    · intro j hij
      have huntouched : ∀ e ∈ (processQueue env fuel pd s).events, evScene e ≠ j :=
        processItems_broke_untouched env fuel pd (itemsToProcess s) s i hbroke
          (itemsToProcess_fst_pairwise s) j hij
      refine ⟨?_, huntouched⟩
      rw [hfin]
      exact applyEvents_get?_untouched s _ j huntouched

def c3wEnv : Env :=
  { apiKey := none
    submit := fun _ => .error ("vendor rejected the job")
    polls := fun _ _ => .result { done := false }
    download := fun _ => { ok := false } }

/-- Witness for C3: a run whose first submission throws breaks at scene 0 and
leaves scene 1 exactly as it started. -/
theorem claim_C3_witness :
    List.Pairwise (· < ·) (submitIndices (processQueue c3wEnv 1 "p" c1wScript).events) ∧
    (processQueue c3wEnv 1 "p" c1wScript).final.scenes.get? 1 = c1wScript.scenes.get? 1 :=
  ⟨(claim_C3 c3wEnv 1 "p" c1wScript).1,
    (((claim_C3 c3wEnv 1 "p" c1wScript).2 0 (by decide)).2 1 (by omega)).1⟩

/- ---------------------------------------------------------------------
   Claim C8 : handleAddToRenderQueue
   --------------------------------------------------------------------- -/

/-- C8.  `handleAddToRenderQueue` is a guarded, idempotent enqueue: if the
scene's videoStatus is queued/processing/done, the script is returned
unchanged; otherwise only that scene changes — its videoStatus becomes
'queued' and its videoUrl and videoGenerationMessage are cleared — everything
else is untouched; and applying the operation twice equals applying it once. -/
theorem claim_C8 (s : ScriptResult) (i : Nat) (h : i < s.scenes.length) :
    (∀ sc, s.scenes.get? i = some sc →
      ((sc.videoStatus = some VideoStatus.queued ∨
        sc.videoStatus = some VideoStatus.processing ∨
        sc.videoStatus = some VideoStatus.done) →
        handleAddToRenderQueue (some s) i = .ok (some s)) ∧
      (¬(sc.videoStatus = some VideoStatus.queued ∨
         sc.videoStatus = some VideoStatus.processing ∨
         sc.videoStatus = some VideoStatus.done) →
        ∃ s', handleAddToRenderQueue (some s) i = .ok (some s') ∧
          s'.hook = s.hook ∧ s'.callToAction = s.callToAction ∧
          s'.suggestedSound = s.suggestedSound ∧
          s'.platformVariations = s.platformVariations ∧
          s'.scenes.length = s.scenes.length ∧
          (∀ j, j ≠ i → s'.scenes.get? j = s.scenes.get? j) ∧
          s'.scenes.get? i =
            some { sc with videoStatus := some VideoStatus.queued, videoUrl := none, videoGenerationMessage := none })) ∧
    ((handleAddToRenderQueue (some s) i).bind (fun c => handleAddToRenderQueue c i) =
      handleAddToRenderQueue (some s) i) := by
  obtain ⟨g, hg⟩ : ∃ sc, s.scenes.get? i = some sc := ⟨_, List.get?_eq_get h⟩
  constructor
  · intro sc hsc
    obtain rfl : sc = g := by
      have := hsc.symm.trans hg
      exact Option.some_injective _ this
    constructor
    · intro hguard
      rw [handleAdd_eq_of_get s i sc hg, if_pos hguard]
    · intro hguard
      refine ⟨{ s with scenes := setScene s.scenes i enqueueUpdate },
        ?_, rfl, rfl, rfl, rfl, ?_, ?_, ?_⟩
      · rw [handleAdd_eq_of_get s i sc hg, if_neg hguard]
      · exact setScene_length _ _ _
      · intro j hj
        exact setScene_get?_ne _ _ _ _ hj
      · show (setScene s.scenes i enqueueUpdate).get? i = _
        rw [setScene_get?_self, hg]
        simp [applySceneUpdate, overrideOpt, enqueueUpdate]
  · by_cases hguard : g.videoStatus = some VideoStatus.queued ∨
      g.videoStatus = some VideoStatus.processing ∨
      g.videoStatus = some VideoStatus.done
    · have h1 : handleAddToRenderQueue (some s) i = .ok (some s) := by
        rw [handleAdd_eq_of_get s i g hg, if_pos hguard]
      rw [h1]
      simp only [exceptBind_ok]
      exact h1
    · have h1 : handleAddToRenderQueue (some s) i =
          .ok (some { s with scenes := setScene s.scenes i enqueueUpdate }) := by
        rw [handleAdd_eq_of_get s i g hg, if_neg hguard]
      rw [h1]
      simp only [exceptBind_ok]
      have hg' : (setScene s.scenes i enqueueUpdate).get? i =
          some (applySceneUpdate g enqueueUpdate) := by
        rw [setScene_get?_self, hg]; rfl
      have hq : (applySceneUpdate g enqueueUpdate).videoStatus = some VideoStatus.queued := rfl
      rw [handleAdd_eq_of_get _ i _ hg', if_pos (Or.inl hq)]

/-- Witness for C8 at a concrete script: a scene with an errored video gets
re-queued with its videoUrl and message cleared. -/
theorem claim_C8_witness :
    (0 : Nat) < ({ hook := ⟨"h", "v", "t"⟩
                   scenes := [{ visual := "v", script := "s", scriptType := .dialogue
                                videoStatus := some .error
                                videoUrl := some ("old")
                                videoGenerationMessage := some ("boom") }]
                   callToAction := "c", suggestedSound := "m" } : ScriptResult).scenes.length ∧
    (handleAddToRenderQueue
        (some { hook := ⟨"h", "v", "t"⟩
                scenes := [{ visual := "v", script := "s", scriptType := .dialogue
                             videoStatus := some .error
                             videoUrl := some ("old")
                             videoGenerationMessage := some ("boom") }]
                callToAction := "c", suggestedSound := "m" }) 0).bind
      (fun c => handleAddToRenderQueue c 0) =
      handleAddToRenderQueue
        (some { hook := ⟨"h", "v", "t"⟩
                scenes := [{ visual := "v", script := "s", scriptType := .dialogue
                             videoStatus := some .error
                             videoUrl := some ("old")
                             videoGenerationMessage := some ("boom") }]
                callToAction := "c", suggestedSound := "m" }) 0 :=
  ⟨by decide, (claim_C8 _ 0 (by decide)).2⟩

/- ---------------------------------------------------------------------
   Claim C7 : generateVoiceoverAudioUrl
   --------------------------------------------------------------------- -/

/-- C7.  generateVoiceoverAudioUrl: with the key unset it throws without
issuing any request; otherwise it issues exactly one POST to the
text-to-speech endpoint for the given voiceId carrying model_id
'eleven_multilingual_v2', stability 0.5 and similarity_boost 0.75, throws
when the response is not ok, and on success returns the object URL of the
received audio blob. -/
theorem claim_C7 (apiKey : Option String) (doFetch : TtsRequest → TtsResponse)
    (text voiceId : String) :
    (jsTruthyOpt apiKey = false →
      generateVoiceoverAudioUrl apiKey doFetch text voiceId =
        ([], .error ("ELEVENLABS_API_KEY environment variable not set."))) ∧
    (jsTruthyOpt apiKey = true →
      (generateVoiceoverAudioUrl apiKey doFetch text voiceId).1 =
        [ttsRequestFor (apiKey.getD "") text voiceId] ∧
      (ttsRequestFor (apiKey.getD "") text voiceId).url =
        "https://api.elevenlabs.io/v1" ++ "/text-to-speech/" ++ voiceId ∧
      (ttsRequestFor (apiKey.getD "") text voiceId).modelId = "eleven_multilingual_v2" ∧
      (ttsRequestFor (apiKey.getD "") text voiceId).stability = (0.5 : Rat) ∧
      (ttsRequestFor (apiKey.getD "") text voiceId).similarityBoost = (0.75 : Rat) ∧
      ((doFetch (ttsRequestFor (apiKey.getD "") text voiceId)).ok = false →
        ∃ m, (generateVoiceoverAudioUrl apiKey doFetch text voiceId).2 = .error m) ∧
      ((doFetch (ttsRequestFor (apiKey.getD "") text voiceId)).ok = true →
        (generateVoiceoverAudioUrl apiKey doFetch text voiceId).2 =
          .ok (doFetch (ttsRequestFor (apiKey.getD "") text voiceId)).blobUrl)) := by
  constructor
  · intro hk
    simp [generateVoiceoverAudioUrl, hk]
  · intro hk
    refine ⟨?_, rfl, rfl, rfl, rfl, ?_, ?_⟩
    · simp only [generateVoiceoverAudioUrl, hk, Bool.not_true, Bool.false_eq_true, if_false]
      split <;> rfl
    · intro hok
      have heq : generateVoiceoverAudioUrl apiKey doFetch text voiceId =
          ([ttsRequestFor (apiKey.getD "") text voiceId],
            .error ("Failed to generate voiceover: " ++
              (doFetch (ttsRequestFor (apiKey.getD "") text voiceId)).statusText ++ " - " ++
              (doFetch (ttsRequestFor (apiKey.getD "") text voiceId)).bodyText)) := by
        simp [generateVoiceoverAudioUrl, hk, hok]
      rw [heq]
      exact ⟨_, rfl⟩
    · intro hok
      simp [generateVoiceoverAudioUrl, hk, hok]

/-- Witness for C7: unset key yields the exact error without any request, and
a set key with an ok response yields the blob URL with exactly one request. -/
theorem claim_C7_witness :
    generateVoiceoverAudioUrl none (fun _ => { ok := true, blobUrl := "blob:a" }) ("hi") ("v1") =
      ([], .error ("ELEVENLABS_API_KEY environment variable not set.")) ∧
    (generateVoiceoverAudioUrl (some ("K")) (fun _ => { ok := true, blobUrl := "blob:a" })
        ("hi") ("v1")).2 = .ok ("blob:a") :=
  ⟨(claim_C7 none (fun _ => { ok := true, blobUrl := "blob:a" }) "hi" "v1").1 rfl,
    ((claim_C7 (some "K") (fun _ => { ok := true, blobUrl := "blob:a" }) "hi" "v1").2
      rfl).2.2.2.2.2.2 rfl⟩

/- ---------------------------------------------------------------------
   Claim C6 : fetchViralAnalysis
   --------------------------------------------------------------------- -/

/-- C6.  fetchViralAnalysis either returns a value whose trends,
characteristics and personas fields are all present and arrays, or throws the
one fixed error message — every internal failure mode maps to that message. -/
theorem claim_C6 (res : VendorTextOutcome) :
    (∃ j, fetchViralAnalysis res = .ok j ∧
      isArrayProp (getProp j ("trends")) = true ∧
      isArrayProp (getProp j ("characteristics")) = true ∧
      isArrayProp (getProp j ("personas")) = true) ∨
    fetchViralAnalysis res =
      .error ("Failed to fetch analysis from Gemini API. Please check your API key and try again.") := by
  cases res with
  | sdkError m => right; rfl
  | parseFailure => right; rfl
  | parsed j =>
    cases j with
    | null => right; rfl
    | boolean b => right; rfl
    | num n => right; rfl
    | str s => right; rfl
    | arr l => right; rfl
    | obj fields =>
      by_cases hbad :
          (!jsTruthyProp (getProp (Json.obj fields) ("trends")) ||
            !jsTruthyProp (getProp (Json.obj fields) ("characteristics")) ||
            !jsTruthyProp (getProp (Json.obj fields) ("personas")) ||
            !isArrayProp (getProp (Json.obj fields) ("trends")) ||
            !isArrayProp (getProp (Json.obj fields) ("characteristics")) ||
            !isArrayProp (getProp (Json.obj fields) ("personas"))) = true
      · right
        simp only [fetchViralAnalysis]
        rw [if_pos hbad]
        rfl
      · left
        refine ⟨Json.obj fields, ?_, ?_, ?_, ?_⟩
        · simp only [fetchViralAnalysis]
          rw [if_neg hbad]
        all_goals
          simp only [Bool.or_eq_true, Bool.not_eq_true', not_or] at hbad
          simp [Bool.not_eq_false] at hbad
          tauto

end VCP
